import Mathlib

/-!
Verification development for the `new_bot` repository (a Telegram submission
bot with two implementation variants: `src/bot.py`, backed by PostgreSQL, and
`src/main.py`, backed by SQLite).  The Python sources are shallowly embedded
here: strings are `List Char`, the stateful database record is an explicit
`App` structure, handlers are pure functions from inputs to a next
conversation state plus emitted effects, and transport/database outcomes are
passed as explicit boolean parameters at the call sites where the Python code
observes (or swallows) them.

Modelling conventions, used throughout and noted again at each definition:
* Python `str` values are `List Char`; `len` is `List.length` (both count
  Unicode code points).
* `re.IGNORECASE` matching of literal words is modelled by comparing
  characters through `lowerRu`, which maps the Cyrillic and ASCII uppercase
  letters (the only letters occurring in the word lists and inputs of this
  repository) to lowercase exactly as Python's case folding does.
* `str.strip()` is `pyStrip`, stripping the standard ASCII whitespace
  characters; the exotic Unicode whitespace also stripped by Python does not
  occur in any input relevant to the claims.
* Python `date`/`datetime.date()` values are `Date` records compared through
  their civil day number `daysFromCivil`; `timedelta(days = n)` is `± n` on
  day numbers.  This is order- and arithmetic-faithful for valid dates.
-/

set_option maxRecDepth 8000
set_option maxHeartbeats 1000000

namespace NewBot

/-- Case folding for the characters occurring in this repository: Cyrillic
`А`–`Я` (U+0410–U+042F) and `Ё` (U+0401) map to their lowercase forms (offset
32 resp. 80), ASCII `A`–`Z` maps to `a`–`z`, and everything else is fixed.
This matches Python's `str.lower` / `re.IGNORECASE` on these characters. -/
def lowerRu (c : Char) : Char :=
  if 'А' ≤ c ∧ c ≤ 'Я' then Char.ofNat (c.toNat + 32)
  else if c = 'Ё' then 'ё'
  else if 'A' ≤ c ∧ c ≤ 'Z' then Char.ofNat (c.toNat + 32)
  else c

/-- Case-insensitive character equality (Python `re.IGNORECASE`). -/
def ciEq (c d : Char) : Bool := lowerRu c == lowerRu d

/-- Case-insensitive "the pattern `w` matches at the start of `s`". -/
def isPrefixCI : List Char → List Char → Bool
  | [], _ => true
  | _ :: _, [] => false
  | c :: w, d :: s => ciEq c d && isPrefixCI w s

/-- Case-insensitive "the pattern `w` occurs somewhere in `s`"
(Python `re.search(re.escape(w), s, re.IGNORECASE)`). -/
def containsCI (w : List Char) : List Char → Bool
  | [] => isPrefixCI w []
  | c :: s => isPrefixCI w (c :: s) || containsCI w s

/-- The mask token `'***'` used by both censors. -/
def masks : List Char := ['*', '*', '*']

/-- Structural worker for `replaceCI`: while `skip > 0` the scanner is still
inside an already-matched region and copies nothing; at `skip = 0` it tests
for a match at the current position, emitting the mask and arming the skip
counter for the rest of the matched region on a hit. -/
def replaceCIAux (w : List Char) : Nat → List Char → List Char
  | _, [] => []
  | 0, c :: rest =>
    if isPrefixCI w (c :: rest) then
      '*' :: '*' :: '*' :: replaceCIAux w (w.length - 1) rest
    else
      c :: replaceCIAux w 0 rest
  | k + 1, _ :: rest => replaceCIAux w k rest

/-- Case-insensitive replacement of every leftmost non-overlapping occurrence
of `w` in `s` by `'***'` (Python `re.sub(re.escape(w), '***', s,
re.IGNORECASE)`): scan left to right, on a match emit the mask and resume
after the matched `w.length` characters. -/
def replaceCI (w : List Char) (s : List Char) : List Char := replaceCIAux w 0 s

/-- Python `str.isspace` for the ASCII whitespace characters stripped by
`str.strip()`. -/
def pySpace (c : Char) : Bool :=
  c == ' ' || c == '\t' || c == '\n' || c == '\r' || c == '\x0b' || c == '\x0c'

/-- Python `str.strip()`. -/
def pyStrip (s : List Char) : List Char :=
  ((s.dropWhile pySpace).reverse.dropWhile pySpace).reverse

/-- Case-sensitive "the pattern `p` matches at the start of `s`". -/
def isPrefixCS : List Char → List Char → Bool
  | [], _ => true
  | _ :: _, [] => false
  | c :: w, d :: s => c == d && isPrefixCS w s

/-- Case-sensitive substring test (Python `p in s`). -/
def hasSubstr (p : List Char) : List Char → Bool
  | [] => isPrefixCS p []
  | c :: s => isPrefixCS p (c :: s) || hasSubstr p s

/-- The conversation states of both variants (`range(9)` in the sources) plus
`ENDC` for `ConversationHandler.END`. -/
inductive ConvState
  | TYPE_SELECTION
  | SENDER_NAME_INPUT
  | RECIPIENT_NAME_INPUT
  | CONGRAT_HOLIDAY_CHOICE
  | CUSTOM_CONGRAT_MESSAGE_INPUT
  | CONGRAT_DATE_INPUT
  | ANNOUNCE_SUBTYPE_SELECTION
  | ANNOUNCE_TEXT_INPUT
  | WAIT_CENSOR_APPROVAL
  | ENDC
deriving DecidableEq

/-- The character inventory of the name validators: the Russian alphabet in
both cases plus space and hyphen.  Both `src/bot.py` (line 272) and
`src/main.py` (line 281) build exactly this set. -/
def allowed_chars : List Char :=
  "абвгдеёжзийклмнопрстуфхцчшщъыьэюяАБВГДЕЁЖЗИЙКЛМНОПРСТУФХЦЧШЩЪЫЬЭЮЯ -".toList

namespace BotPy

/-- `validate_name` of `src/bot.py` (lines 266–277): reject empty/whitespace
input, then require, on the stripped name, length 2–50, characters from
`allowed_chars`, no leading or trailing hyphen, and no doubled hyphen. -/
def validate_name (name : List Char) : Bool :=
  if name = [] ∨ pyStrip name = [] then false
  else
    let n := pyStrip name
    (decide (2 ≤ n.length) && decide (n.length ≤ 50)) &&
      n.all (fun c => allowed_chars.contains c) &&
      !(decide (n.head? = some '-')) &&
      !(decide (n.getLast? = some '-')) &&
      !(hasSubstr ('-' :: '-' :: []) n)

end BotPy

namespace MainPy

/-- `validate_name` of `src/main.py` (lines 279–283): on the stripped name,
Python-truthiness of the name and length 2–50 and characters from
`allowed_chars`.  Unlike the `bot.py` variant it performs no check on hyphen
placement. -/
def validate_name (name : List Char) : Bool :=
  let n := pyStrip name
  !(decide (n = [])) &&
    ((decide (2 ≤ n.length) && decide (n.length ≤ 50)) &&
      n.all (fun c => allowed_chars.contains c))

end MainPy

/-- Modelled from the spec sentence behind C6 ("accepted iff the trimmed
value has length 2–50, consists only of allowed-language letters, spaces, and
hyphens, does not start/end with a hyphen, and contains no doubled hyphen"),
with "allowed-language letters, spaces, and hyphens" rendered by the same
character inventory `allowed_chars` the repository fixes for its language. -/
def nameValidSpec (name : List Char) : Bool :=
  let n := pyStrip name
  (decide (2 ≤ n.length) && decide (n.length ≤ 50)) &&
    n.all (fun c => allowed_chars.contains c) &&
    !(decide (n.head? = some '-')) &&
    !(decide (n.getLast? = some '-')) &&
    !(hasSubstr ('-' :: '-' :: []) n)

/-! Calendar dates.  Python `date` objects are represented by year/month/day
records; `daysFromCivil` is the standard civil-calendar day count (days since
1970-01-01, Gregorian, correct for all positive years), so that Python's date
ordering and `timedelta(days = n)` arithmetic correspond to `≤` and `± n` on
day numbers. -/

/-- Day number of a civil date (Hinnant's `days_from_civil` algorithm). -/
def daysFromCivil (y : Int) (m d : Nat) : Int :=
  let y' : Int := if m ≤ 2 then y - 1 else y
  let era : Int := (if 0 ≤ y' then y' else y' - 399) / 400
  let yoe : Int := y' - era * 400
  let mp : Int := (Int.ofNat m + 9) % 12
  let doy : Int := (153 * mp + 2) / 5 + Int.ofNat d - 1
  let doe : Int := yoe * 365 + yoe / 4 - yoe / 100 + doy
  era * 146097 + doe - 719468

/-- A calendar date as Python's `datetime.date` carries it. -/
structure Date where
  year : Int
  month : Nat
  day : Nat
deriving DecidableEq

/-- The day number of a date. -/
def Date.days (dt : Date) : Int := daysFromCivil dt.year dt.month dt.day

/-- `is_holiday_active` as implemented identically in `src/bot.py` (lines
279–290) and `src/main.py` (lines 285–296): parse the year-agnostic
month/day against the *current* year (the year of `today`), widen by ±5
days, and test `start ≤ today ≤ end`.  Date comparison and `timedelta`
arithmetic are carried out on civil day numbers. -/
def is_holiday_active (hm hd : Nat) (today : Date) : Bool :=
  let h := daysFromCivil today.year hm hd
  decide (h - 5 ≤ today.days) && decide (today.days ≤ h + 5)

/-- Modelled from the claim C10's words: the year-agnostic window
`[Dec 27, Jan 6]` in which the claim says New Year is selectable. -/
def newYearWindowSpec (m d : Nat) : Bool :=
  (decide (m = 12) && decide (27 ≤ d)) || (decide (m = 1) && decide (d ≤ 6))

/-- The holiday-selection branch of `handle_congrat_holiday_choice` in
`src/main.py` (lines 599–619) for a holiday with month/day `(hm, hd)` from
the `HOLIDAYS` table: an inactive holiday re-prompts `CONGRAT_HOLIDAY_CHOICE`;
an active one stores the template and publish date and runs
`complete_request`, ending the conversation. -/
def handle_congrat_holiday_choice_main (hm hd : Nat) (today : Date) : ConvState :=
  if is_holiday_active hm hd today then ConvState.ENDC
  else ConvState.CONGRAT_HOLIDAY_CHOICE

/-- The holiday-selection branch of `select_congrat_holiday` in `src/bot.py`
(lines 501–523): an active holiday stores the template and advances to
`SENDER_NAME_INPUT`; an inactive one re-prompts `CONGRAT_HOLIDAY_CHOICE`. -/
def select_congrat_holiday_bot (hm hd : Nat) (today : Date) : ConvState :=
  if is_holiday_active hm hd today then ConvState.SENDER_NAME_INPUT
  else ConvState.CONGRAT_HOLIDAY_CHOICE

/-! The two censors.  Both iterate the banned-word loop
`if re.search(word, censored, IGNORECASE): flag; censored = re.sub(...)`
over their word list against the accumulating censored text; `src/main.py`
additionally applies the contact-information regex afterwards. -/

namespace BotPy

/-- `DEFAULT_BAD_WORDS` of `src/bot.py` (line 36), transcribed verbatim. -/
def DEFAULT_BAD_WORDS : List (List Char) := [
  "хуй", "пизда", "блять", "блядь", "ебать", "сука",
  "номер", "телефон", "звоните", "пишите", "контакт", "минет",
  "минетчик", "минетчица", "мокрощелка", "мокрощёлка", "манда", "мандавошка",
  "мандавошки", "мандей", "мандень", "мандеть", "мандища", "мандой",
  "манду", "мандюк", "мандюга", "мудоеб", "мудозвон", "мудоклюй",
  "наебать", "наебет", "наебнуть", "наебывать", "обосрать", "обосцать",
  "обосцаться", "обдристаться", "объебос", "обьебать", "обьебос", "отпиздить",
  "отпиздячить", "отпороть", "отъебись", "остоебенить", "остопиздеть", "охуеть",
  "охуенно", "охуевать", "охуевающий", "паскуда", "падла", "паскудник",
  "нахер", "нахрен", "нахуй", "нехера", "нехрен", "нехуй",
  "никуя", "нихуя", "нихера", "непизда", "нипизда", "нипизду",
  "напиздел", "напиздили", "наебнулся", "наебался", "пердеж", "пердение",
  "пердеть", "пердильник", "пердун", "пердунец", "пердунья", "пердуха",
  "пердульки", "перднуть", "пёрнуть", "пернуть", "пердят", "пиздят",
  "пиздить", "пиздишь", "пиздится", "заебал", "заебло", "пидар",
  "пидарас", "пидор", "пидорас", "пидик", "педрик", "педераст",
  "пидрас", "пидры", "пидрилы", "пидрило", "педрило", "блядина",
  "блядь", "блядство", "блядствующие", "блядствует", "шалава", "шалавость",
  "шалавиться"].map String.toList

/-- The banned-word loop shared by both censors (`src/bot.py` lines 296–309,
`src/main.py` lines 323–338): fold the word list over the accumulating
censored text, flagging and masking on each case-insensitive hit. -/
def censorWords (words : List (List Char)) (text : List Char) : List Char × Bool :=
  words.foldl
    (fun acc w => if containsCI w acc.1 then (replaceCI w acc.1, true) else acc)
    (text, false)

/-- `censor_text` of `src/bot.py` (lines 296–321): only the banned-word loop
(the contact-information regex of the other variant is commented out
there). -/
def censor_text (text : List Char) : List Char × Bool :=
  censorWords DEFAULT_BAD_WORDS text

end BotPy

namespace MainPy

/-- `DEFAULT_BAD_WORDS` of `src/main.py` (line 26), transcribed verbatim;
`bad_words.txt` is not part of the repository, so `load_bad_words` falls back
to this list. -/
def DEFAULT_BAD_WORDS : List (List Char) :=
  ["хуй", "пизда", "блять", "блядь", "ебать", "сука"].map String.toList

/-- The replacement text of the contact-information rule in `src/main.py`
(line 343). -/
def contact_phrase : List Char :=
  "Контактная информация скрыта (пишите в ЛС)".toList

/-- The keyword alternation of the contact pattern
`(звоните|пишите|телефон|номер|тел\.?|т\.)`, flattened in the order a
backtracking regex engine tries it (`тел\.?` preferring the longer form). -/
def contact_keywords : List (List Char) :=
  ["звоните", "пишите", "телефон", "номер", "тел.", "тел", "т."].map String.toList

/-- Membership in the separator class `[:;\s]` of the contact pattern. -/
def sepChar (c : Char) : Bool := c == ':' || c == ';' || pySpace c

/-- Membership in the payload class `[\+\d\(\).\s-]` of the contact
pattern (`\d` rendered as the ASCII digits, the only digits arising here). -/
def classChar (c : Char) : Bool :=
  c == '+' || c.isDigit || c == '(' || c == ')' || c == '.' || pySpace c || c == '-'

/-- Length of the maximal `classChar` run at the front of `s`. -/
def classRun (s : List Char) : Nat := (s.takeWhile classChar).length

/-- Length of the maximal `sepChar` run at the front of `s`. -/
def sepRun (s : List Char) : Nat := (s.takeWhile sepChar).length

/-- Backtracking search for `[:;\s]*([\+\d\(\).\s-]{7,})` at the front of
`rest`: the greedy star first consumes `a` separator characters (tried from
the given bound downwards, Python trying the longest option first) and the
greedy `{7,}` then takes the whole payload run if it reaches length 7.
Returns the total number of characters consumed. -/
def sepClassTry (rest : List Char) : Nat → Option Nat
  | 0 => if 7 ≤ classRun rest then some (classRun rest) else none
  | a + 1 =>
    if 7 ≤ classRun (rest.drop (a + 1)) then some ((a + 1) + classRun (rest.drop (a + 1)))
    else sepClassTry rest a

/-- The tail `[:;\s]*([\+\d\(\).\s-]{7,})` of the contact pattern matched at
the front of `rest`. -/
def sepClassMatch (rest : List Char) : Option Nat := sepClassTry rest (sepRun rest)

/-- Try the keyword alternatives in order; on a keyword hit whose tail fails,
backtrack into the next alternative, exactly as Python's engine does. -/
def matchKw : List (List Char) → List Char → Option Nat
  | [], _ => none
  | kw :: kws, s =>
    if isPrefixCI kw s then
      match sepClassMatch (s.drop kw.length) with
      | some n => some (kw.length + n)
      | none => matchKw kws s
    else matchKw kws s

/-- Length of the contact-pattern match starting exactly at the front of
`s`, if any. -/
def matchLenAt (s : List Char) : Option Nat := matchKw contact_keywords s

/-- Structural worker for `contactSub`: while `skip > 0` the scanner is still
inside an already-replaced match and copies nothing; at `skip = 0` it tests
for a match at the current position, emitting the phrase and arming the skip
counter for the rest of the match on a hit (a match always spans at least its
keyword, so `n ≥ 2`). -/
def contactSubAux : Nat → List Char → List Char
  | _, [] => []
  | 0, c :: s =>
    match matchLenAt (c :: s) with
    | some n => contact_phrase ++ contactSubAux (n - 1) s
    | none => c :: contactSubAux 0 s
  | k + 1, _ :: rest => contactSubAux k rest

/-- `re.sub(contact_pattern, phrase, s, IGNORECASE)` (`src/main.py` lines
342–343): scan left to right, replacing each leftmost match by the phrase and
resuming after it. -/
def contactSub (s : List Char) : List Char := contactSubAux 0 s

/-- `censor_text` of `src/main.py` (lines 318–347): the banned-word loop over
the six-word list, then the contact-information substitution; the flag
reports only the banned-word hits. -/
def censor_text (text : List Char) : List Char × Bool :=
  let r := BotPy.censorWords DEFAULT_BAD_WORDS text
  (contactSub r.1, r.2)

end MainPy

/-! The submission record and the operations that touch it.  Each operation
is modelled per record (the Python loops and handlers act on one row at a
time); transport and database outcomes that the Python code observes — or
demonstrably ignores — are explicit boolean parameters. -/

/-- The `status` column; the code only ever writes these four values. -/
inductive Status
  | pending
  | approved
  | rejected
  | published
deriving DecidableEq

/-- The `type` column; `add_application` only receives these three. -/
inductive ReqType
  | congrat
  | announcement
  | news
deriving DecidableEq

/-- One row of the `applications` table, restricted to the columns the
claims are about.  `publish_date` is the civil day number of the `DATE`
column (`none` for NULL or a value `strptime` rejects); `published_at` is
the day stamp of the `TIMESTAMP` column (`none` for NULL). -/
structure App where
  id : Nat
  user_id : Nat
  typ : ReqType
  status : Status
  publish_date : Option Nat
  published_at : Option Nat
deriving DecidableEq

/-- Outbound effects the claims count: the channel broadcast attempt, the
publication-success notification, the approval/rejection notices, and the
authorization refusal reply of `bot.py`. -/
inductive Eff
  | sendChannel (appId : Nat)
  | notifyPublished (userId appId : Nat)
  | notifyApproved (userId appId : Nat)
  | notifyRejected (userId appId : Nat)
  | refused
deriving DecidableEq

/-- A moderation decision. -/
inductive Action
  | approve
  | reject
deriving DecidableEq

/-- Effects claim C1 is about: the broadcast message and the user
publication-success notification. -/
def pubEffect : Eff → Bool
  | Eff.sendChannel _ => true
  | Eff.notifyPublished _ _ => true
  | _ => false

namespace MainPy

/-- `publish_application_to_channel` of `src/main.py` (lines 1123–1208).
Guards: publishing enabled, `status == 'approved'`, `published_at` NULL
(repairing the status to `published` when `published_at` is already set).
The channel send goes through `safe_send_message`, which swallows transport
errors, so the code proceeds to `mark_application_as_published` regardless of
the send outcome `sendOk`; `markOk` is that single UPDATE's outcome, and on
its success the user is notified. -/
def publish_application_to_channel (publishingEnabled sendOk markOk : Bool)
    (now : Nat) (a : App) : App × List Eff :=
  if !publishingEnabled then (a, [])
  else if a.status ≠ Status.approved then (a, [])
  else if a.published_at ≠ none then
    (if a.status ≠ Status.published ∧ markOk then { a with status := Status.published } else a, [])
  else
    if markOk then
      ({ a with status := Status.published, published_at := some now },
        Eff.sendChannel a.id ::
          (if a.user_id ≠ 0 then [Eff.notifyPublished a.user_id a.id] else []))
    else (a, [Eff.sendChannel a.id])

/-- One record's slice of `scheduled_publication_check` in `src/main.py`
(lines 1210–1255): the SQL filter `status = 'approved' AND published_at IS
NULL`, the in-loop double check of the same condition, the skip on a missing
or unparsable `publish_date`, the due-date test, and the call into
`publish_application_to_channel`. -/
def scheduled_publication_cycle (publishingEnabled sendOk markOk : Bool)
    (today now : Nat) (a : App) : App × List Eff :=
  if !publishingEnabled then (a, [])
  else if a.status = Status.approved ∧ a.published_at = none then
    match a.publish_date with
    | none => (a, [])
    | some d =>
      if d ≤ today then publish_application_to_channel publishingEnabled sendOk markOk now a
      else (a, [])
  else (a, [])

/-- `handle_admin_decision` of `src/main.py` (lines 1049–1122) acting on an
existing record `a`.  The handler reads the pressed button's payload and the
record but — unlike the `bot.py` variant — never consults the acting user's
identity, so `actor` and `admin` are (faithfully) unused.  `dbOk` is the
status UPDATE's outcome.  On approve, a record already `approved`/`published`
is reported without transition; otherwise the status becomes `approved` and,
when publishing is enabled, the pre-update record had a due `publish_date`
and NULL `published_at`, the freshly re-read (post-update) record is
published immediately through `publish_application_to_channel`.  On reject, a
record already `rejected` is reported without transition; otherwise the
status becomes `rejected` and the submitting user is notified. -/
def handle_admin_decision (actor admin : Int) (act : Action)
    (dbOk publishingEnabled sendOk markOk : Bool) (today now : Nat)
    (a : App) : App × List Eff :=
  match act with
  | Action.approve =>
    if a.status = Status.approved ∨ a.status = Status.published then (a, [])
    else if dbOk then
      let a' := { a with status := Status.approved }
      match a.publish_date with
      | some d =>
        if publishingEnabled ∧ a.published_at = none ∧ d ≤ today then
          publish_application_to_channel publishingEnabled sendOk markOk now a'
        else (a', [])
      | none => (a', [])
    else (a, [])
  | Action.reject =>
    if a.status = Status.rejected then (a, [])
    else if dbOk then
      ({ a with status := Status.rejected },
        if a.user_id ≠ 0 then [Eff.notifyRejected a.user_id a.id] else [])
    else (a, [])

/-- The pre-insert validation of `add_application` in `src/main.py` (lines
154–205): names longer than 50 or a missing text or a text longer than 4000
are rejected before the INSERT; otherwise the insert outcome `dbOk` decides
whether an id is produced. -/
def add_application_accepts (from_name to_name : Option (List Char))
    (text : Option (List Char)) (dbOk : Bool) : Bool :=
  match from_name with
  | some n => if 50 < n.length then false else
    match to_name with
    | some n2 => if 50 < n2.length then false else
      match text with
      | none => false
      | some t => if 4000 < t.length then false else dbOk
    | none =>
      match text with
      | none => false
      | some t => if 4000 < t.length then false else dbOk
  | none =>
    match to_name with
    | some n2 => if 50 < n2.length then false else
      match text with
      | none => false
      | some t => if 4000 < t.length then false else dbOk
    | none =>
      match text with
      | none => false
      | some t => if 4000 < t.length then false else dbOk

end MainPy

namespace BotPy

/-- `publish_to_channel` of `src/bot.py` (lines 371–392) acting on an
existing record: with no channel configured it returns `false` untouched;
otherwise it sends the text directly (`bot.send_message` raises on failure,
caught by the surrounding `try`), and only on send success marks the record
published (`mark_application_as_published` sets `published_at` and `status`
in one UPDATE whose outcome is `markOk`; the routine ignores that outcome).
No user notification is sent by this variant's publish routine. -/
def publish_to_channel (channelSet sendOk markOk : Bool) (now : Nat)
    (a : App) : (App × List Eff) × Bool :=
  if !channelSet then ((a, []), false)
  else if sendOk then
    ((if markOk then { a with status := Status.published, published_at := some now } else a,
      [Eff.sendChannel a.id]), true)
  else ((a, [Eff.sendChannel a.id]), false)

/-- One record's slice of `check_pending_applications` in `src/bot.py`
(lines 394–403): the SQL filter `status = 'approved' AND published_at IS
NULL`, then publish if the type is news/announcement or the publish date is
present and due. -/
def check_pending_applications (channelSet sendOk markOk : Bool)
    (today now : Nat) (a : App) : App × List Eff :=
  if a.status = Status.approved ∧ a.published_at = none then
    if (a.typ == ReqType.news || a.typ == ReqType.announcement ||
        (match a.publish_date with | some d => decide (d ≤ today) | none => false)) then
      (publish_to_channel channelSet sendOk markOk now a).1
    else (a, [])
  else (a, [])

/-- `admin_callback_handler` of `src/bot.py` (lines 758–796) acting on an
existing record: an actor whose id differs from `ADMIN_CHAT_ID` (the code
compares their decimal string forms, which agree exactly when the integers
do) is refused with a reply and nothing changes; a record whose status is not
`pending` is reported without transition; otherwise the decision sets the
status (UPDATE outcome `dbOk`) and notifies the submitting user.  This
variant never triggers an immediate publication. -/
def admin_callback_handler (actor admin : Int) (act : Action) (dbOk : Bool)
    (a : App) : App × List Eff :=
  if actor ≠ admin then (a, [Eff.refused])
  else if a.status ≠ Status.pending then (a, [])
  else
    match act with
    | Action.approve =>
      if dbOk then ({ a with status := Status.approved }, [Eff.notifyApproved a.user_id a.id])
      else (a, [])
    | Action.reject =>
      if dbOk then ({ a with status := Status.rejected }, [Eff.notifyRejected a.user_id a.id])
      else (a, [])

end BotPy

/-- The buttons of the censor-approval state in `src/bot.py` (the handler's
registered pattern `^(approve_censor|edit_text|back_to_start)$`). -/
inductive CensorChoiceBot
  | approve_censor
  | edit_text
  | back_to_start
deriving DecidableEq

/-- The buttons of the censor-approval state in `src/main.py` (pattern
`^(accept_censor|edit_censor|back_to_holiday_choice|back_to_subtype|back_to_start)$`). -/
inductive CensorChoiceMain
  | accept_censor
  | edit_censor
  | back_to_holiday_choice
  | back_to_subtype
  | back_to_start
deriving DecidableEq

namespace BotPy

/-- The text-message path of `process_custom_congrat_text` in `src/bot.py`
(lines 526–542): empty or whitespace-only text re-prompts; raw length above
500 re-prompts; otherwise the text is stored and the dialogue advances to the
sender-name input (no censor call here — this variant censors the assembled
text later, in `process_congrat_date`). -/
def process_custom_congrat_text (text : List Char) : ConvState :=
  if text = [] ∨ pyStrip text = [] then ConvState.CUSTOM_CONGRAT_MESSAGE_INPUT
  else if 500 < text.length then ConvState.CUSTOM_CONGRAT_MESSAGE_INPUT
  else ConvState.SENDER_NAME_INPUT

/-- The text-message path of `process_announce_text` in `src/bot.py` (lines
642–677): empty or whitespace-only text re-prompts; the limit is 300 for a
news item but `MAX_CONGRAT_TEXT_LENGTH = 500` for everything else (announce
included), applied to the raw text; above it re-prompts; then the censor
runs, a flagged text moves to `WAIT_CENSOR_APPROVAL`, and a clean one
completes the request (conversation end). -/
def process_announce_text (request_type : ReqType) (text : List Char) : ConvState :=
  if text = [] ∨ pyStrip text = [] then ConvState.ANNOUNCE_TEXT_INPUT
  else
    let maxLen : Nat := if request_type = ReqType.news then 300 else 500
    if maxLen < text.length then ConvState.ANNOUNCE_TEXT_INPUT
    else if (censor_text text).2 then ConvState.WAIT_CENSOR_APPROVAL
    else ConvState.ENDC

/-- `process_congrat_date` of `src/bot.py` (lines 591–626) — the handler in
which this variant censors the assembled congratulation text.  The outcome of
`datetime.strptime(date_str, "%d.%m.%Y")` is the `parsed` parameter (`none`
when it raises `ValueError`): an unparsable date re-prompts the date input, a
parsed date before `today` re-prompts, and otherwise `censor_text` runs on
the session's assembled text — a flagged text shows the censored preview and
moves to `WAIT_CENSOR_APPROVAL`, a clean one runs `complete_request`
(conversation end).  Python's `date` ordering is `<` on civil day numbers. -/
def process_congrat_date (parsed : Option Date) (today : Date)
    (text : List Char) : ConvState :=
  match parsed with
  | none => ConvState.CONGRAT_DATE_INPUT
  | some publish_date =>
    if publish_date.days < today.days then ConvState.CONGRAT_DATE_INPUT
    else if (censor_text text).2 then ConvState.WAIT_CENSOR_APPROVAL
    else ConvState.ENDC

/-- `handle_censor_approval` of `src/bot.py` (lines 679–698), given the
session's request type and pending censored text: `approve_censor` commits
the censored text and completes the request (the second component is the text
the completion uses); `edit_text` returns to the originating text-input state
for the type; `back_to_start` restarts the dialogue (bot.py's `start` always
replies and returns `TYPE_SELECTION`). -/
def handle_censor_approval (request_type : ReqType) (censored_text : List Char)
    (c : CensorChoiceBot) : ConvState × Option (List Char) :=
  match c with
  | CensorChoiceBot.approve_censor => (ConvState.ENDC, some censored_text)
  | CensorChoiceBot.edit_text =>
    (if request_type = ReqType.congrat then ConvState.CUSTOM_CONGRAT_MESSAGE_INPUT
     else ConvState.ANNOUNCE_TEXT_INPUT, none)
  | CensorChoiceBot.back_to_start => (ConvState.TYPE_SELECTION, none)

end BotPy

namespace MainPy

/-- The text-message path of `process_custom_congrat_message` in
`src/main.py` (lines 643–705): the input is stripped; empty re-prompts;
stripped length above 500 re-prompts; then the censor runs on the stripped
text — a flagged text closes the session immediately
(`ConversationHandler.END` after the "заявка автоматически закрыта" reply),
an unflagged but altered text moves to `WAIT_CENSOR_APPROVAL`, and an
untouched text advances to the date input.  The second component records
whether `complete_request` ran (never on this handler — completion happens
after the date input). -/
def process_custom_congrat_message (text : List Char) : ConvState × Bool :=
  let t := pyStrip text
  if t = [] then (ConvState.CUSTOM_CONGRAT_MESSAGE_INPUT, false)
  else if 500 < t.length then (ConvState.CUSTOM_CONGRAT_MESSAGE_INPUT, false)
  else
    let r := censor_text t
    if r.2 then (ConvState.ENDC, false)
    else if r.1 ≠ t then (ConvState.WAIT_CENSOR_APPROVAL, false)
    else (ConvState.CONGRAT_DATE_INPUT, false)

/-- The text-message path of `process_announce_news_text` in `src/main.py`
(lines 813–880): the input is stripped; empty re-prompts; stripped length
above `MAX_ANNOUNCE_NEWS_TEXT_LENGTH = 300` re-prompts (for announcements and
news alike); then the censor runs — a flagged text closes the session
immediately, an unflagged but altered text moves to `WAIT_CENSOR_APPROVAL`,
and an untouched text completes the request (second component true). -/
def process_announce_news_text (request_type : ReqType) (text : List Char) :
    ConvState × Bool :=
  let t := pyStrip text
  if t = [] then (ConvState.ANNOUNCE_TEXT_INPUT, false)
  else if 300 < t.length then (ConvState.ANNOUNCE_TEXT_INPUT, false)
  else
    let r := censor_text t
    if r.2 then (ConvState.ENDC, false)
    else if r.1 ≠ t then (ConvState.WAIT_CENSOR_APPROVAL, false)
    else (ConvState.ENDC, true)

/-- `handle_censor_choice` of `src/main.py` (lines 882–935), given the
session's request type, whether the congratulation is of the `custom` kind,
and the pending censored text: `accept_censor` continues the pipeline with
the censored text (date input for a custom congratulation, completion
otherwise — the second component is the committed text); `edit_censor`
returns to the originating text-input state; `back_to_holiday_choice` and
`back_to_subtype` behave as in the source, re-prompting the censor-approval
state when they do not apply to the session's type.  `back_to_start`
delegates to `start_command` (line 893), which begins with
`if not update.message: return ConversationHandler.END`; the button press
carries a callback query and no message, so the dialogue ends. -/
def handle_censor_choice (request_type : ReqType) (congrat_custom : Bool)
    (censored_text : List Char) (c : CensorChoiceMain) :
    ConvState × Option (List Char) :=
  match c with
  | CensorChoiceMain.back_to_start => (ConvState.ENDC, none)
  | CensorChoiceMain.back_to_holiday_choice =>
    if request_type = ReqType.congrat then (ConvState.CONGRAT_HOLIDAY_CHOICE, none)
    else (ConvState.WAIT_CENSOR_APPROVAL, none)
  | CensorChoiceMain.back_to_subtype =>
    if request_type = ReqType.announcement then (ConvState.ANNOUNCE_SUBTYPE_SELECTION, none)
    else (ConvState.WAIT_CENSOR_APPROVAL, none)
  | CensorChoiceMain.accept_censor =>
    if request_type = ReqType.congrat ∧ congrat_custom then
      (ConvState.CONGRAT_DATE_INPUT, some censored_text)
    else (ConvState.ENDC, some censored_text)
  | CensorChoiceMain.edit_censor =>
    if request_type = ReqType.congrat ∧ congrat_custom then
      (ConvState.CUSTOM_CONGRAT_MESSAGE_INPUT, none)
    else (ConvState.ANNOUNCE_TEXT_INPUT, none)

end MainPy

/-- Case-insensitive equality of two character lists (same length, pointwise
`ciEq`). -/
def listCIEq : List Char → List Char → Bool
  | [], [] => true
  | c :: v, d :: s => ciEq c d && listCIEq v s
  | _, _ => false

namespace MainPy

/-- No contact-pattern match starts at any position of the list. -/
def noMatchB : List Char → Bool
  | [] => true
  | c :: s => (matchLenAt (c :: s)).isNone && noMatchB s

/-- The keyword `kw` mismatches `u` at some position inside their overlap, so
no continuation of `u` can make `kw` match at the front. -/
def kwMismatch : List Char → List Char → Bool
  | c :: kw', d :: u' => if ciEq c d then kwMismatch kw' u' else true
  | _, _ => false

/-- Certificate that `[:;\s]*([\+\d\(\).\s-]{7,})` fails at the front of
`r ++ X` for every `X`: `r` contains a character outside both classes (so the
search never reads past `r`) and the search already fails on `r` itself. -/
def failCertB (r : List Char) : Bool :=
  r.any (fun c => !(sepChar c || classChar c)) && (sepClassMatch r).isNone

/-- Certificate that the keyword alternative `kw` can never produce a match
at the front of `u ++ X`, for any `X`. -/
def kwBlocked (kw u : List Char) : Bool :=
  kwMismatch kw u ||
    (decide (kw.length ≤ u.length) && isPrefixCI kw u && failCertB (u.drop kw.length))

/-- Certificate that no contact-pattern match can start at the front of
`u ++ X`, for any `X`. -/
def locallyBlocked (u : List Char) : Bool :=
  contact_keywords.all (fun kw => kwBlocked kw u)

end MainPy

/-- One operation of the `main.py` system against a record: a scheduled
publisher cycle or an admin decision. -/
inductive OpMain
  | cycle (publishingEnabled sendOk markOk : Bool) (today now : Nat)
  | admin (actor admin : Int) (act : Action)
      (dbOk publishingEnabled sendOk markOk : Bool) (today now : Nat)

/-- Run one `main.py` operation. -/
def stepMain : OpMain → App → App × List Eff
  | OpMain.cycle pe so mo today now, a =>
    MainPy.scheduled_publication_cycle pe so mo today now a
  | OpMain.admin actor admin act dbOk pe so mo today now, a =>
    MainPy.handle_admin_decision actor admin act dbOk pe so mo today now a

/-- Run a sequence of `main.py` operations, accumulating all effects. -/
def runMain : List OpMain → App → App × List Eff
  | [], a => (a, [])
  | op :: ops, a =>
    let r := stepMain op a
    let r' := runMain ops r.1
    (r'.1, r.2 ++ r'.2)

/-- One operation of the `bot.py` system against a record. -/
inductive OpBot
  | cycle (channelSet sendOk markOk : Bool) (today now : Nat)
  | admin (actor admin : Int) (act : Action) (dbOk : Bool)

/-- Run one `bot.py` operation. -/
def stepBot : OpBot → App → App × List Eff
  | OpBot.cycle cs so mo today now, a => BotPy.check_pending_applications cs so mo today now a
  | OpBot.admin actor admin act dbOk, a => BotPy.admin_callback_handler actor admin act dbOk a

/-- Run a sequence of `bot.py` operations, accumulating all effects. -/
def runBot : List OpBot → App → App × List Eff
  | [], a => (a, [])
  | op :: ops, a =>
    let r := stepBot op a
    let r' := runBot ops r.1
    (r'.1, r.2 ++ r'.2)

end NewBot

open NewBot

/-! Claim C6 — name validation. -/

/-- C6 (amended): `validate_name` of `src/bot.py` accepts a name exactly when
the trimmed value has length 2–50, consists only of the allowed letters,
spaces and hyphens, does not start or end with a hyphen, and contains no
doubled hyphen.  (`src/main.py`'s `validate_name` omits the three hyphen
rules; see `claim_C6_counterexample`.) -/
theorem claim_C6 : ∀ name, BotPy.validate_name name = nameValidSpec name := by
  intro name
  unfold BotPy.validate_name nameValidSpec
  by_cases h : pyStrip name = []
  · have hcond : (name = [] ∨ pyStrip name = []) := Or.inr h
    simp [hcond, h]
  · have hne : ¬ (name = [] ∨ pyStrip name = []) := by
      rintro (rfl | hs)
      · exact h rfl
      · exact h hs
    simp only [if_neg hne]

/-- C6 (counterexample): the input `"-Аб"` starts with a hyphen, so the claim
says validation returns `false`; `validate_name` of `src/main.py` returns
`true` on it. -/
theorem claim_C6_counterexample :
    MainPy.validate_name ("-Аб".toList) = true ∧
    nameValidSpec ("-Аб".toList) = false := by decide

/-! Claim C10 — the New Year selectability window. -/

/-- C10 (code bug): on 2025-12-28 — a day inside the claimed `[Dec 27,
Jan 6]` window — `is_holiday_active` computes the window around Jan 1 of the
*current* year (2025), obtaining `[2024-12-27, 2025-01-06]`, and reports New
Year inactive, so both variants' holiday-choice handlers re-prompt instead
of advancing; early-January days do activate it. -/
theorem claim_C10 :
    is_holiday_active 1 1 ⟨2025, 12, 28⟩ = false ∧
    newYearWindowSpec 12 28 = true ∧
    handle_congrat_holiday_choice_main 1 1 ⟨2025, 12, 28⟩ =
      ConvState.CONGRAT_HOLIDAY_CHOICE ∧
    select_congrat_holiday_bot 1 1 ⟨2025, 12, 28⟩ =
      ConvState.CONGRAT_HOLIDAY_CHOICE ∧
    is_holiday_active 1 1 ⟨2026, 1, 2⟩ = true ∧
    is_holiday_active 1 1 ⟨2026, 1, 7⟩ = false := by decide

/-! Claim C8 — censoring `"звоните 89991234567"`. -/

/-- C8 (counterexample): `censor_text` of `src/main.py` reports *no*
violation on `"звоните 89991234567"` — its banned-word list holds only the
six profanities, and the contact-information rule that rewrites this input
does not set the flag. -/
theorem claim_C8_counterexample :
    (MainPy.censor_text ("звоните 89991234567".toList)).2 = false := by decide

/-- C8 (amended): on `"звоните 89991234567"`, `censor_text` of `src/bot.py`
flags a violation and masks the banned term `"звоните"` with the mask token;
`censor_text` of `src/main.py` leaves the flag unset and replaces the whole
contact match by its fixed replacement phrase. -/
theorem claim_C8 :
    BotPy.censor_text ("звоните 89991234567".toList) =
      ("*** 89991234567".toList, true) ∧
    MainPy.censor_text ("звоните 89991234567".toList) =
      (MainPy.contact_phrase, false) := by decide

/-! Claim C5 — routing of censor violations. -/

/-- C5 (counterexample): in `src/main.py` a text the censor flags does not
reach `WAIT_CENSOR_APPROVAL` — both text handlers close the session
immediately (`ConversationHandler.END`, no completion). -/
theorem claim_C5_counterexample :
    (MainPy.censor_text ("сука".toList)).2 = true ∧
    MainPy.process_custom_congrat_message ("сука".toList) = (ConvState.ENDC, false) ∧
    MainPy.process_announce_news_text ReqType.news ("сука".toList) =
      (ConvState.ENDC, false) := by decide

/-- C5 (amended): in `src/bot.py` every accepted final content text is
censored and a flagged text moves the dialogue to `WAIT_CENSOR_APPROVAL`:
this holds for announcements and news in `process_announce_text` and for the
assembled congratulation in `process_congrat_date` (once a valid, non-past
publication date is entered), a clean text completing the request instead;
from `WAIT_CENSOR_APPROVAL` the `approve_censor` button completes the request
with the censored text and the `edit_text` button returns to the originating
text-input state.  In `src/main.py` a flagged text instead closes the session
immediately in both text handlers, and each handler moves to
`WAIT_CENSOR_APPROVAL` *exactly when* the accepted text is censor-altered
without being flagged (the contact-information rewrite); there
`accept_censor` continues the pipeline with the censored text while
`edit_censor` returns to the originating text-input state. -/
theorem claim_C5 :
    (∀ typ text, text ≠ [] → pyStrip text ≠ [] →
      text.length ≤ (if typ = ReqType.news then 300 else 500) →
      (BotPy.censor_text text).2 = true →
      BotPy.process_announce_text typ text = ConvState.WAIT_CENSOR_APPROVAL) ∧
    (∀ pd today text, today.days ≤ pd.days →
      (BotPy.censor_text text).2 = true →
      BotPy.process_congrat_date (some pd) today text =
        ConvState.WAIT_CENSOR_APPROVAL) ∧
    (∀ pd today text, today.days ≤ pd.days →
      (BotPy.censor_text text).2 = false →
      BotPy.process_congrat_date (some pd) today text = ConvState.ENDC) ∧
    (∀ typ ct, BotPy.handle_censor_approval typ ct CensorChoiceBot.approve_censor =
      (ConvState.ENDC, some ct)) ∧
    (∀ ct, BotPy.handle_censor_approval ReqType.congrat ct CensorChoiceBot.edit_text =
      (ConvState.CUSTOM_CONGRAT_MESSAGE_INPUT, none)) ∧
    (∀ typ ct, typ ≠ ReqType.congrat →
      BotPy.handle_censor_approval typ ct CensorChoiceBot.edit_text =
      (ConvState.ANNOUNCE_TEXT_INPUT, none)) ∧
    (∀ text, pyStrip text ≠ [] → (pyStrip text).length ≤ 500 →
      (MainPy.censor_text (pyStrip text)).2 = true →
      MainPy.process_custom_congrat_message text = (ConvState.ENDC, false)) ∧
    (∀ typ text, pyStrip text ≠ [] → (pyStrip text).length ≤ 300 →
      (MainPy.censor_text (pyStrip text)).2 = true →
      MainPy.process_announce_news_text typ text = (ConvState.ENDC, false)) ∧
    (∀ text, pyStrip text ≠ [] → (pyStrip text).length ≤ 500 →
      (MainPy.censor_text (pyStrip text)).2 = false →
      (MainPy.censor_text (pyStrip text)).1 ≠ pyStrip text →
      MainPy.process_custom_congrat_message text =
        (ConvState.WAIT_CENSOR_APPROVAL, false)) ∧
    (∀ text, (MainPy.process_custom_congrat_message text).1 =
        ConvState.WAIT_CENSOR_APPROVAL ↔
      pyStrip text ≠ [] ∧ (pyStrip text).length ≤ 500 ∧
      (MainPy.censor_text (pyStrip text)).2 = false ∧
      (MainPy.censor_text (pyStrip text)).1 ≠ pyStrip text) ∧
    (∀ typ text, (MainPy.process_announce_news_text typ text).1 =
        ConvState.WAIT_CENSOR_APPROVAL ↔
      pyStrip text ≠ [] ∧ (pyStrip text).length ≤ 300 ∧
      (MainPy.censor_text (pyStrip text)).2 = false ∧
      (MainPy.censor_text (pyStrip text)).1 ≠ pyStrip text) ∧
    (∀ ct, MainPy.handle_censor_choice ReqType.congrat true ct
      CensorChoiceMain.accept_censor = (ConvState.CONGRAT_DATE_INPUT, some ct)) ∧
    (∀ typ ct, typ ≠ ReqType.congrat →
      MainPy.handle_censor_choice typ false ct CensorChoiceMain.accept_censor =
      (ConvState.ENDC, some ct)) ∧
    (∀ ct, MainPy.handle_censor_choice ReqType.congrat true ct
      CensorChoiceMain.edit_censor = (ConvState.CUSTOM_CONGRAT_MESSAGE_INPUT, none)) ∧
    (∀ typ ct, typ ≠ ReqType.congrat →
      MainPy.handle_censor_choice typ false ct CensorChoiceMain.edit_censor =
      (ConvState.ANNOUNCE_TEXT_INPUT, none)) := by
  refine ⟨?_, ?_, ?_, ?_, ?_, ?_, ?_, ?_, ?_, ?_, ?_, ?_, ?_, ?_, ?_⟩
  · intro typ text h1 h2 h3 hflag
    have hne : ¬ (text = [] ∨ pyStrip text = []) := by
      rintro (hs | hs) <;> [exact h1 hs; exact h2 hs]
    unfold BotPy.process_announce_text
    simp only [if_neg hne]
    have hlen : ¬ ((if typ = ReqType.news then (300 : Nat) else 500) < text.length) :=
      not_lt.mpr h3
    simp only [if_neg hlen, hflag, if_true]
  · intro pd today text hd hflag
    unfold BotPy.process_congrat_date
    simp only [if_neg (not_lt.mpr hd), hflag, if_true]
  · intro pd today text hd hflag
    unfold BotPy.process_congrat_date
    simp [if_neg (not_lt.mpr hd), hflag]
  · intro typ ct; rfl
  · intro ct; simp [BotPy.handle_censor_approval]
  · intro typ ct h; simp [BotPy.handle_censor_approval, h]
  · intro text h1 h2 hflag
    unfold MainPy.process_custom_congrat_message
    simp only [if_neg h1, if_neg (not_lt.mpr h2), hflag, if_true]
  · intro typ text h1 h2 hflag
    unfold MainPy.process_announce_news_text
    simp only [if_neg h1, if_neg (not_lt.mpr h2), hflag, if_true]
  · intro text h1 h2 hflag halt
    unfold MainPy.process_custom_congrat_message
    simp [if_neg h1, not_lt.mpr h2, hflag, halt]
  · intro text
    unfold MainPy.process_custom_congrat_message
    dsimp only
    split_ifs with h1 h2 h3 h4 <;> simp_all [not_lt] <;> omega
  · intro typ text
    unfold MainPy.process_announce_news_text
    dsimp only
    split_ifs with h1 h2 h3 h4 <;> simp_all [not_lt] <;> omega
  · intro ct; simp [MainPy.handle_censor_choice]
  · intro typ ct h; simp [MainPy.handle_censor_choice, h]
  · intro ct; simp [MainPy.handle_censor_choice]
  · intro typ ct h; simp [MainPy.handle_censor_choice, h]

/-- C5 (witness): the amended claim's conditional parts at concrete inputs —
a flagged announcement in `bot.py` waits for censor approval, a flagged
assembled congratulation in `bot.py` (with a valid future date) waits for
censor approval while a clean one completes, a flagged custom congratulation
in `main.py` ends the session, and a contact-information rewrite in
`main.py` waits for censor approval. -/
theorem claim_C5_witness :
    BotPy.process_announce_text ReqType.news ("сука".toList) =
      ConvState.WAIT_CENSOR_APPROVAL ∧
    BotPy.process_congrat_date (some ⟨2026, 1, 5⟩) ⟨2026, 1, 1⟩ ("сука".toList) =
      ConvState.WAIT_CENSOR_APPROVAL ∧
    BotPy.process_congrat_date (some ⟨2026, 1, 5⟩) ⟨2026, 1, 1⟩ ("привет".toList) =
      ConvState.ENDC ∧
    MainPy.process_custom_congrat_message ("сука".toList) = (ConvState.ENDC, false) ∧
    MainPy.process_custom_congrat_message ("звоните 89991234567".toList) =
      (ConvState.WAIT_CENSOR_APPROVAL, false) ∧
    BotPy.handle_censor_approval ReqType.news ("т".toList) CensorChoiceBot.edit_text =
      (ConvState.ANNOUNCE_TEXT_INPUT, none) ∧
    MainPy.handle_censor_choice ReqType.news false ("т".toList)
      CensorChoiceMain.accept_censor = (ConvState.ENDC, some ("т".toList)) :=
  ⟨claim_C5.1 ReqType.news _ (by decide) (by decide) (by decide) (by decide),
   claim_C5.2.1 ⟨2026, 1, 5⟩ ⟨2026, 1, 1⟩ _ (by decide) (by decide),
   claim_C5.2.2.1 ⟨2026, 1, 5⟩ ⟨2026, 1, 1⟩ _ (by decide) (by decide),
   claim_C5.2.2.2.2.2.2.1 _ (by decide) (by decide) (by decide),
   claim_C5.2.2.2.2.2.2.2.2.1 _ (by decide) (by decide) (by decide) (by decide),
   claim_C5.2.2.2.2.2.1 ReqType.news _ (by decide),
   claim_C5.2.2.2.2.2.2.2.2.2.2.2.2.1 ReqType.news _ (by decide)⟩

/-! Claim C9 — text length limits. -/

/-- C9 (counterexample): a 301-character announcement text exceeds the
claimed 300-character limit, yet `process_announce_text` of `src/bot.py`
accepts it and completes the request instead of re-prompting — that variant
caps announcements at 500. -/
theorem claim_C9_counterexample :
    (List.replicate 301 'а').length = 301 ∧
    BotPy.process_announce_text ReqType.announcement (List.replicate 301 'а') =
      ConvState.ENDC := by decide

/-- C9 (amended): `src/main.py` enforces the claimed limits — a custom
congratulation re-prompts exactly when the trimmed text is empty or longer
than 500, an announcement/news text exactly when it is empty or longer than
300, and the storage layer rejects texts longer than 4000.  `src/bot.py`
checks the *raw* length and re-prompts news above 300 but announcements only
above 500 (and custom congratulations above 500). -/
theorem claim_C9 :
    (∀ text, (MainPy.process_custom_congrat_message text).1 =
        ConvState.CUSTOM_CONGRAT_MESSAGE_INPUT ↔
      (pyStrip text = [] ∨ 500 < (pyStrip text).length)) ∧
    (∀ typ text, (MainPy.process_announce_news_text typ text).1 =
        ConvState.ANNOUNCE_TEXT_INPUT ↔
      (pyStrip text = [] ∨ 300 < (pyStrip text).length)) ∧
    (∀ text, BotPy.process_custom_congrat_text text =
        ConvState.CUSTOM_CONGRAT_MESSAGE_INPUT ↔
      (text = [] ∨ pyStrip text = [] ∨ 500 < text.length)) ∧
    (∀ typ text, BotPy.process_announce_text typ text =
        ConvState.ANNOUNCE_TEXT_INPUT ↔
      (text = [] ∨ pyStrip text = [] ∨
        (if typ = ReqType.news then (300 : Nat) else 500) < text.length)) ∧
    (∀ fn tn t dbOk, MainPy.add_application_accepts fn tn (some t) dbOk =
      ((match fn with | some n => decide (n.length ≤ 50) | none => true) &&
       ((match tn with | some n => decide (n.length ≤ 50) | none => true) &&
        (decide (t.length ≤ 4000) && dbOk)))) := by
  refine ⟨?_, ?_, ?_, ?_, ?_⟩
  · intro text
    unfold MainPy.process_custom_congrat_message
    by_cases h1 : pyStrip text = []
    · simp [h1]
    · by_cases h2 : 500 < (pyStrip text).length
      · simp [h1, h2]
      · simp only [if_neg h1, if_neg h2]
        constructor
        · intro h
          exfalso
          revert h
          split
          · intro h; cases h
          · split
            · intro h; cases h
            · intro h; cases h
        · rintro (hs | hs) <;> [exact absurd hs h1; exact absurd hs h2]
  · intro typ text
    unfold MainPy.process_announce_news_text
    by_cases h1 : pyStrip text = []
    · simp [h1]
    · by_cases h2 : 300 < (pyStrip text).length
      · simp [h1, h2]
      · simp only [if_neg h1, if_neg h2]
        constructor
        · intro h
          exfalso
          revert h
          split
          · intro h; cases h
          · split
            · intro h; cases h
            · intro h; cases h
        · rintro (hs | hs) <;> [exact absurd hs h1; exact absurd hs h2]
  · intro text
    unfold BotPy.process_custom_congrat_text
    by_cases h1 : text = [] ∨ pyStrip text = []
    · simp [h1] <;> tauto
    · by_cases h2 : 500 < text.length
      · simp [h1, h2] <;> tauto
      · simp [h1, h2] <;> tauto
  · intro typ text
    unfold BotPy.process_announce_text
    by_cases h1 : text = [] ∨ pyStrip text = []
    · simp [h1] <;> tauto
    · by_cases h2 : (if typ = ReqType.news then (300 : Nat) else 500) < text.length
      · simp [h1, h2] <;> tauto
      · simp only [if_neg h1, if_neg h2]
        constructor
        · intro h
          exfalso
          revert h
          split <;> decide
        · intro h
          exfalso
          rcases h with hs | hs | hs
          · exact h1 (Or.inl hs)
          · exact h1 (Or.inr hs)
          · exact h2 hs
  · intro fn tn t dbOk
    cases fn <;> cases tn <;>
      simp only [MainPy.add_application_accepts] <;>
      split_ifs <;> simp_all <;> omega

/-! Claims C2/C3/C4 — helper lemmas and theorems. -/

theorem publish_main_status_cases (pe so mo : Bool) (now : Nat) (a : App) :
    (MainPy.publish_application_to_channel pe so mo now a).1 = a ∨
    (a.status = Status.approved ∧
      (MainPy.publish_application_to_channel pe so mo now a).1.status = Status.published) := by
  unfold MainPy.publish_application_to_channel
  split_ifs with h1 h2 h3 h4 h5 <;> simp_all

theorem cycle_main_status_cases (pe so mo : Bool) (today now : Nat) (a : App) :
    (MainPy.scheduled_publication_cycle pe so mo today now a).1 = a ∨
    (a.status = Status.approved ∧
      (MainPy.scheduled_publication_cycle pe so mo today now a).1.status = Status.published) := by
  unfold MainPy.scheduled_publication_cycle
  split_ifs with h1 h2
  · left; rfl
  · rcases hpd : a.publish_date with _ | d
    · simp only [hpd]
      simp
    · simp only [hpd]
      by_cases hd : d ≤ today
      · simp only [if_pos hd]
        exact publish_main_status_cases pe so mo now a
      · simp only [if_neg hd]
        simp
  · left; rfl

theorem admin_main_status_cases (actor admin : Int) (act : Action)
    (dbOk pe so mo : Bool) (today now : Nat) (a : App) :
    (MainPy.handle_admin_decision actor admin act dbOk pe so mo today now a).1 = a ∨
    (act = Action.approve ∧ ¬(a.status = Status.approved ∨ a.status = Status.published) ∧
      ((MainPy.handle_admin_decision actor admin act dbOk pe so mo today now a).1.status
          = Status.approved ∨
        (MainPy.handle_admin_decision actor admin act dbOk pe so mo today now a).1.status
          = Status.published)) ∨
    (act = Action.reject ∧ a.status ≠ Status.rejected ∧
      (MainPy.handle_admin_decision actor admin act dbOk pe so mo today now a).1.status
        = Status.rejected) := by
  obtain ⟨i, u, ty, st, pd, pa⟩ := a
  cases act <;> cases st <;> cases dbOk <;> cases pd <;> cases pa <;> cases pe <;> cases mo <;>
    simp [MainPy.handle_admin_decision, MainPy.publish_application_to_channel] <;>
    split_ifs <;> simp_all

theorem cycle_bot_cases (cs so mo : Bool) (today now : Nat) (a : App) :
    (BotPy.check_pending_applications cs so mo today now a).1 = a ∨
    (a.status = Status.approved ∧ a.published_at = none ∧
      (BotPy.check_pending_applications cs so mo today now a).1 =
        { a with status := Status.published, published_at := some now }) := by
  obtain ⟨i, u, ty, st, pd, pa⟩ := a
  cases st <;> cases pd <;> cases pa <;> cases cs <;> cases so <;> cases mo <;>
    simp [BotPy.check_pending_applications, BotPy.publish_to_channel] <;>
    split_ifs <;> simp_all

theorem admin_bot_cases (actor admin : Int) (act : Action) (dbOk : Bool) (a : App) :
    (BotPy.admin_callback_handler actor admin act dbOk a).1 = a ∨
    (a.status = Status.pending ∧
      ((BotPy.admin_callback_handler actor admin act dbOk a).1.status = Status.approved ∨
       (BotPy.admin_callback_handler actor admin act dbOk a).1.status = Status.rejected)) := by
  obtain ⟨i, u, ty, st, pd, pa⟩ := a
  by_cases h : actor = admin <;>
    cases act <;> cases st <;> cases dbOk <;>
    simp [BotPy.admin_callback_handler, h]

/-- C2 (amended): no operation of either variant returns a record to
`pending`, and `bot.py`'s operations never change a `published` or `rejected`
record at all; `main.py`'s per-operation status transitions, however, are
exactly: identity, `pending → approved/rejected/published` and
`approved → published` (the claimed forward arrows, with publication possibly
chained onto an approval), plus the claim-violating `rejected →
approved/published` (approve re-opens a rejected record) and `approved →
rejected` and `published → rejected` (reject tears down an approved or even
published record).  `published → approved` remains impossible. -/
theorem claim_C2 :
    (∀ (op : OpMain) (a : App),
      (stepMain op a).1.status = Status.pending → a.status = Status.pending) ∧
    (∀ (op : OpBot) (a : App),
      (stepBot op a).1.status = Status.pending → a.status = Status.pending) ∧
    (∀ (op : OpBot) (a : App),
      a.status = Status.published ∨ a.status = Status.rejected → (stepBot op a).1 = a) ∧
    (∀ (op : OpMain) (a : App),
      (stepMain op a).1.status = a.status ∨
      (a.status = Status.pending ∧
        ((stepMain op a).1.status = Status.approved ∨
         (stepMain op a).1.status = Status.rejected ∨
         (stepMain op a).1.status = Status.published)) ∨
      (a.status = Status.rejected ∧
        ((stepMain op a).1.status = Status.approved ∨
         (stepMain op a).1.status = Status.published)) ∨
      (a.status = Status.approved ∧
        ((stepMain op a).1.status = Status.published ∨
         (stepMain op a).1.status = Status.rejected)) ∨
      (a.status = Status.published ∧ (stepMain op a).1.status = Status.rejected)) := by
  have mainTrans : ∀ (op : OpMain) (a : App),
      (stepMain op a).1.status = a.status ∨
      (a.status = Status.pending ∧
        ((stepMain op a).1.status = Status.approved ∨
         (stepMain op a).1.status = Status.rejected ∨
         (stepMain op a).1.status = Status.published)) ∨
      (a.status = Status.rejected ∧
        ((stepMain op a).1.status = Status.approved ∨
         (stepMain op a).1.status = Status.published)) ∨
      (a.status = Status.approved ∧
        ((stepMain op a).1.status = Status.published ∨
         (stepMain op a).1.status = Status.rejected)) ∨
      (a.status = Status.published ∧ (stepMain op a).1.status = Status.rejected) := by
    intro op a
    cases op with
    | cycle pe so mo today now =>
      unfold stepMain
      rcases cycle_main_status_cases pe so mo today now a with hc | ⟨hs, hc⟩
      · left; rw [hc]
      · right; right; right; left; exact ⟨hs, Or.inl hc⟩
    | admin actor admin act dbOk pe so mo today now =>
      unfold stepMain
      rcases admin_main_status_cases actor admin act dbOk pe so mo today now a with
        hid | ⟨_, hnot, hres⟩ | ⟨_, hne, hres⟩
      · left; rw [hid]
      · rcases hst : a.status with _ | _ | _ | _
        · right; left
          refine ⟨rfl, ?_⟩
          rcases hres with hr | hr
          · exact Or.inl hr
          · exact Or.inr (Or.inr hr)
        · exact absurd (Or.inl hst) hnot
        · right; right; left
          refine ⟨rfl, ?_⟩
          rcases hres with hr | hr
          · exact Or.inl hr
          · exact Or.inr hr
        · exact absurd (Or.inr hst) hnot
      · rcases hst : a.status with _ | _ | _ | _
        · right; left; exact ⟨rfl, Or.inr (Or.inl hres)⟩
        · right; right; right; left; exact ⟨rfl, Or.inr hres⟩
        · exact absurd hst hne
        · right; right; right; right; exact ⟨rfl, hres⟩
  refine ⟨?_, ?_, ?_, mainTrans⟩
  · intro op a h
    rcases mainTrans op a with hc | ⟨hs, _⟩ | ⟨hs, hr⟩ | ⟨hs, hr⟩ | ⟨hs, hr⟩
    · rw [h] at hc; exact hc.symm
    · exact hs
    · rcases hr with hr | hr <;> rw [h] at hr <;> cases hr
    · rcases hr with hr | hr <;> rw [h] at hr <;> cases hr
    · rw [h] at hr; cases hr
  · intro op a h
    cases op with
    | cycle cs so mo today now =>
      unfold stepBot at h
      rcases cycle_bot_cases cs so mo today now a with hc | ⟨hs, _, hc⟩
      · rw [hc] at h; exact h
      · rw [hc] at h; cases h
    | admin actor admin act dbOk =>
      unfold stepBot at h
      rcases admin_bot_cases actor admin act dbOk a with hc | ⟨hs, hr⟩
      · rw [hc] at h; exact h
      · rcases hr with hr | hr <;> rw [h] at hr <;> cases hr
  · intro op a h
    cases op with
    | cycle cs so mo today now =>
      unfold stepBot
      rcases cycle_bot_cases cs so mo today now a with hc | ⟨hs, _, _⟩
      · exact hc
      · rcases h with h | h <;> rw [h] at hs <;> cases hs
    | admin actor admin act dbOk =>
      unfold stepBot
      rcases admin_bot_cases actor admin act dbOk a with hc | ⟨hs, _⟩
      · exact hc
      · rcases h with h | h <;> rw [h] at hs <;> cases hs

/-- C2 (witness): the conditional parts at concrete inputs — a published and
a rejected record are untouched by a `bot.py` admin decision, and a
`main.py` operation that leaves the status `pending` started from
`pending`. -/
theorem claim_C2_witness :
    (stepBot (OpBot.admin 1 1 Action.reject true)
      { id := 1, user_id := 7, typ := ReqType.news, status := Status.published,
        publish_date := some 5, published_at := some 6 }).1 =
      { id := 1, user_id := 7, typ := ReqType.news, status := Status.published,
        publish_date := some 5, published_at := some 6 } ∧
    ({ id := 1, user_id := 7, typ := ReqType.news, status := Status.pending,
        publish_date := none, published_at := none } : App).status = Status.pending :=
  ⟨claim_C2.2.2.1 (OpBot.admin 1 1 Action.reject true) _ (Or.inl rfl),
   claim_C2.2.1 (OpBot.admin 1 1 Action.approve false) _ (by decide)⟩

/-- C2 (counterexample): `main.py`'s decision handler does change records in
the terminal states — a reject on a *published* record moves it to
`rejected`, and an approve on a *rejected* record moves it back to
`approved`. -/
theorem claim_C2_counterexample :
    (MainPy.handle_admin_decision 1 1 Action.reject true true true true 10 10
      { id := 1, user_id := 7, typ := ReqType.news, status := Status.published,
        publish_date := some 5, published_at := some 6 }).1.status = Status.rejected ∧
    (MainPy.handle_admin_decision 1 1 Action.approve true false true true 10 10
      { id := 2, user_id := 7, typ := ReqType.news, status := Status.rejected,
        publish_date := some 5, published_at := none }).1.status = Status.approved := by
  decide

/-- C3 (amended): `publish_to_channel` of `src/bot.py` behaves as claimed —
on send failure the record is returned untouched (status `approved`, NULL
`published_at`, ready for the next cycle), and on send success the one
`mark_application_as_published` UPDATE sets `status = published` and
`published_at` together.  `publish_application_to_channel` of `src/main.py`,
however, swallows the send outcome inside `safe_send_message` and marks an
approved unpublished record published (notifying the user) whenever the
marking UPDATE succeeds, regardless of whether the send succeeded. -/
theorem claim_C3 :
    (∀ (cs mo : Bool) (now : Nat) (a : App),
      BotPy.publish_to_channel cs false mo now a =
        ((a, if cs then [Eff.sendChannel a.id] else []), false)) ∧
    (∀ (now : Nat) (a : App),
      BotPy.publish_to_channel true true true now a =
        (({ a with status := Status.published, published_at := some now },
          [Eff.sendChannel a.id]), true)) ∧
    (∀ (so : Bool) (now : Nat) (a : App),
      a.status = Status.approved → a.published_at = none →
      (MainPy.publish_application_to_channel true so true now a).1 =
        { a with status := Status.published, published_at := some now }) := by
  refine ⟨?_, ?_, ?_⟩
  · intro cs mo now a
    cases cs <;> simp [BotPy.publish_to_channel]
  · intro now a
    simp [BotPy.publish_to_channel]
  · intro so now a h1 h2
    unfold MainPy.publish_application_to_channel
    simp [h1, h2]

/-- C3 (witness): the conditional part at a concrete input — `main.py`'s
publish routine marks an approved unpublished record published even when the
send failed (`sendOk = false`). -/
theorem claim_C3_witness :
    (MainPy.publish_application_to_channel true false true 10
      { id := 3, user_id := 7, typ := ReqType.congrat, status := Status.approved,
        publish_date := some 5, published_at := none }).1 =
      { id := 3, user_id := 7, typ := ReqType.congrat, status := Status.published,
        publish_date := some 5, published_at := some 10 } :=
  claim_C3.2.2 false 10 _ rfl rfl

/-- C3 (counterexample): with the channel send failing (`sendOk = false`) and
the database UPDATE succeeding, `publish_application_to_channel` of
`src/main.py` still sets `status = published` with a non-null `published_at`
and still emits the send attempt and the user's success notification — the
record does not stay `approved`/unpublished for a retry as the claim
requires. -/
theorem claim_C3_counterexample :
    MainPy.publish_application_to_channel true false true 10
      { id := 3, user_id := 7, typ := ReqType.congrat, status := Status.approved,
        publish_date := some 5, published_at := none } =
      ({ id := 3, user_id := 7, typ := ReqType.congrat, status := Status.published,
           publish_date := some 5, published_at := some 10 },
       [Eff.sendChannel 3, Eff.notifyPublished 7 3]) := by decide

/-- C4 (amended): `admin_callback_handler` of `src/bot.py` refuses an actor
whose identity differs from the configured moderator with a reply and no
record change; `handle_admin_decision` of `src/main.py` performs no actor
check at all — its result is the same for every actor and every configured
moderator identity, so a non-matching actor's decision is applied rather
than refused. -/
theorem claim_C4 :
    (∀ (actor admin : Int) (act : Action) (dbOk : Bool) (a : App),
      actor ≠ admin →
      BotPy.admin_callback_handler actor admin act dbOk a = (a, [Eff.refused])) ∧
    (∀ (actor₁ admin₁ actor₂ admin₂ : Int) (act : Action)
      (dbOk pe so mo : Bool) (today now : Nat) (a : App),
      MainPy.handle_admin_decision actor₁ admin₁ act dbOk pe so mo today now a =
        MainPy.handle_admin_decision actor₂ admin₂ act dbOk pe so mo today now a) := by
  constructor
  · intro actor admin act dbOk a h
    unfold BotPy.admin_callback_handler
    simp [h]
  · intro actor₁ admin₁ actor₂ admin₂ act dbOk pe so mo today now a
    rfl

/-- C4 (witness): the conditional part at a concrete input — actor 999
against moderator identity 1 is refused by `bot.py` with no state change. -/
theorem claim_C4_witness :
    BotPy.admin_callback_handler 999 1 Action.approve true
      { id := 4, user_id := 7, typ := ReqType.news, status := Status.pending,
        publish_date := none, published_at := none } =
      ({ id := 4, user_id := 7, typ := ReqType.news, status := Status.pending,
           publish_date := none, published_at := none }, [Eff.refused]) :=
  claim_C4.1 999 1 Action.approve true _ (by decide)

/-- C4 (counterexample): in `src/main.py` an actor (999) who differs from the
configured moderator identity (1) still gets their reject applied — the
pending record moves to `rejected` and the submitter is notified, instead of
the action being refused with no state change. -/
theorem claim_C4_counterexample :
    (999 : Int) ≠ 1 ∧
    MainPy.handle_admin_decision 999 1 Action.reject true true true true 10 10
      { id := 4, user_id := 7, typ := ReqType.news, status := Status.pending,
        publish_date := none, published_at := none } =
      ({ id := 4, user_id := 7, typ := ReqType.news, status := Status.rejected,
           publish_date := none, published_at := none }, [Eff.notifyRejected 7 4]) := by
  decide

theorem step_main_published_inv (op : OpMain) (a : App) (h : a.published_at ≠ none) :
    (stepMain op a).1.published_at ≠ none ∧
    ((stepMain op a).2.all fun e => !pubEffect e) = true := by
  obtain ⟨i, u, ty, st, pd, pa⟩ := a
  cases pa with
  | none => exact absurd rfl h
  | some t =>
    cases op with
    | cycle pe so mo today now =>
      cases st <;> cases pd <;> cases pe <;> cases so <;> cases mo <;>
        simp [stepMain, MainPy.scheduled_publication_cycle,
          MainPy.publish_application_to_channel, pubEffect] <;>
        split_ifs <;> simp_all [pubEffect]
    | admin actor admin act dbOk pe so mo today now =>
      cases act <;> cases st <;> cases pd <;> cases dbOk <;> cases pe <;> cases so <;> cases mo <;>
        simp [stepMain, MainPy.handle_admin_decision,
          MainPy.publish_application_to_channel, pubEffect] <;>
        split_ifs <;> simp_all [pubEffect]

theorem step_bot_published_frozen (op : OpBot) (a : App) (h : a.status = Status.published) :
    (stepBot op a).1 = a ∧ ((stepBot op a).2.all fun e => !pubEffect e) = true := by
  obtain ⟨i, u, ty, st, pd, pa⟩ := a
  cases st <;> try cases h
  cases op with
  | cycle cs so mo today now =>
    simp [stepBot, BotPy.check_pending_applications]
  | admin actor admin act dbOk =>
    by_cases hx : actor = admin <;>
      cases act <;> simp [stepBot, BotPy.admin_callback_handler, hx, pubEffect]

theorem run_main_published_inv (ops : List OpMain) (a : App) (h : a.published_at ≠ none) :
    ((runMain ops a).2.all fun e => !pubEffect e) = true := by
  induction ops generalizing a with
  | nil => rfl
  | cons op ops ih =>
    have hs := step_main_published_inv op a h
    unfold runMain
    simp only [List.all_append, Bool.and_eq_true]
    exact ⟨hs.2, ih (stepMain op a).1 hs.1⟩

theorem run_bot_published_inv (ops : List OpBot) (a : App) (h : a.status = Status.published) :
    ((runBot ops a).2.all fun e => !pubEffect e) = true := by
  induction ops generalizing a with
  | nil => rfl
  | cons op ops ih =>
    have hs := step_bot_published_frozen op a h
    unfold runBot
    simp only [List.all_append, Bool.and_eq_true]
    refine ⟨hs.2, ih (stepBot op a).1 ?_⟩
    rw [hs.1]
    exact h

/-- C1: once a record is `published` with a non-null `published_at`, no
sequence of scheduled-publisher cycles and admin decisions — in either
variant, under any transport/database outcomes — ever again emits the
channel broadcast or the user's publication-success notification for it: the
eligibility filters (`status = 'approved' AND published_at IS NULL`) and the
publish routines' guards exclude it, admin approval's immediate-publish path
requires a NULL `published_at`, and no operation ever clears
`published_at`. -/
theorem claim_C1 (a : App) (hst : a.status = Status.published)
    (hpub : a.published_at ≠ none) :
    (∀ ops : List OpMain, ((runMain ops a).2.all fun e => !pubEffect e) = true) ∧
    (∀ ops : List OpBot, ((runBot ops a).2.all fun e => !pubEffect e) = true) :=
  ⟨fun ops => run_main_published_inv ops a hpub,
   fun ops => run_bot_published_inv ops a hst⟩

/-- C1 (witness): the guarantee at a concrete published record and concrete
operation sequences (a cycle, a re-approve attempt and a reject in `main.py`;
a cycle and decisions in `bot.py`). -/
theorem claim_C1_witness :
    ((runMain
        [OpMain.cycle true true true 100 100,
         OpMain.admin 1 1 Action.approve true true true true 100 100,
         OpMain.admin 1 1 Action.reject true true true true 100 100,
         OpMain.admin 1 1 Action.approve true true true true 100 100,
         OpMain.cycle true true true 100 100]
        { id := 9, user_id := 7, typ := ReqType.congrat, status := Status.published,
          publish_date := some 5, published_at := some 6 }).2.all
      fun e => !pubEffect e) = true ∧
    ((runBot
        [OpBot.cycle true true true 100 100,
         OpBot.admin 1 1 Action.approve true,
         OpBot.admin 1 1 Action.reject true]
        { id := 9, user_id := 7, typ := ReqType.congrat, status := Status.published,
          publish_date := some 5, published_at := some 6 }).2.all
      fun e => !pubEffect e) = true :=
  ⟨(claim_C1 _ rfl (by decide)).1 _, (claim_C1 _ rfl (by decide)).2 _⟩

/-! Claim C7 — idempotence of both censors.  The development first settles
the banned-word loop (any list of nonempty words having no `'*'` in their
case-folded forms leaves a text free of all of them, and a clean text passes
through unchanged with a false flag), then the contact-information
substitution of `main.py` (its output contains neither a banned word nor a
fresh contact match). -/

theorem isPrefixCI_nil (v : List Char) : isPrefixCI v [] = true ↔ v = [] := by
  cases v <;> simp [isPrefixCI]

theorem containsCI_cons (w : List Char) (c : Char) (s : List Char) :
    containsCI w (c :: s) = (isPrefixCI w (c :: s) || containsCI w s) := rfl

theorem containsCI_nil (w : List Char) : containsCI w [] = true ↔ w = [] := by
  cases w <;> simp [containsCI, isPrefixCI]

theorem containsCI_tail (w : List Char) (c : Char) (s : List Char)
    (h : containsCI w s = true) : containsCI w (c :: s) = true := by
  rw [containsCI_cons, h, Bool.or_true]

theorem replaceCIAux_skip (w : List Char) :
    ∀ (k : Nat) (s : List Char), replaceCIAux w k s = replaceCI w (s.drop k) := by
  intro k
  induction k with
  | zero => intro s; rfl
  | succ k ih =>
    intro s
    cases s with
    | nil => simp [replaceCIAux, replaceCI]
    | cons c rest => simp [replaceCIAux, ih, List.drop_succ_cons]

theorem replaceCI_cons (w : List Char) (c : Char) (rest : List Char) :
    replaceCI w (c :: rest) =
      if isPrefixCI w (c :: rest) then
        '*' :: '*' :: '*' :: replaceCI w (rest.drop (w.length - 1))
      else c :: replaceCI w rest := by
  show replaceCIAux w 0 (c :: rest) = _
  simp only [replaceCIAux, replaceCIAux_skip, List.drop_zero]

theorem isPrefixCI_star (v : List Char) (hv : ∀ c ∈ v, lowerRu c ≠ '*')
    (xs : List Char) (h : isPrefixCI v ('*' :: xs) = true) : v = [] := by
  cases v with
  | nil => rfl
  | cons v0 v' =>
    exfalso
    simp only [isPrefixCI, Bool.and_eq_true] at h
    have h0 : lowerRu v0 = lowerRu '*' := by
      have := h.1
      simpa [ciEq] using this
    exact hv v0 (by simp) (by simpa using h0)

theorem containsCI_star (v : List Char) (hv : ∀ c ∈ v, lowerRu c ≠ '*')
    (hne : v ≠ []) (xs : List Char) :
    containsCI v ('*' :: xs) = containsCI v xs := by
  rw [containsCI_cons]
  cases hp : isPrefixCI v ('*' :: xs) with
  | true => exact absurd (isPrefixCI_star v hv xs hp) hne
  | false => simp

theorem containsCI_drop (v : List Char) :
    ∀ (k : Nat) (s : List Char), containsCI v (s.drop k) = true → containsCI v s = true := by
  intro k
  induction k with
  | zero => intro s h; simpa using h
  | succ k ih =>
    intro s h
    cases s with
    | nil => simpa using h
    | cons c rest =>
      rw [List.drop_succ_cons] at h
      exact containsCI_tail v c rest (ih rest h)

theorem replaceCI_prefix_transfer_fuel (w' : List Char) :
    ∀ (n : Nat) (s : List Char), s.length ≤ n → ∀ v : List Char,
      (∀ c ∈ v, lowerRu c ≠ '*') →
      isPrefixCI v (replaceCI w' s) = true → isPrefixCI v s = true := by
  intro n
  induction n with
  | zero =>
    intro s hs v hv h
    have : s = [] := List.length_eq_zero.mp (Nat.le_zero.mp hs)
    subst this
    exact h
  | succ n ih =>
    intro s hs v hv h
    cases s with
    | nil => exact h
    | cons c rest =>
      rw [replaceCI_cons] at h
      by_cases hp : isPrefixCI w' (c :: rest) = true
      · rw [if_pos hp] at h
        have hv0 : v = [] := isPrefixCI_star v hv _ h
        subst hv0
        rfl
      · rw [if_neg hp] at h
        cases v with
        | nil => rfl
        | cons v0 v' =>
          simp only [isPrefixCI, Bool.and_eq_true] at h ⊢
          refine ⟨h.1, ?_⟩
          have hrest : rest.length ≤ n := by
            simp only [List.length_cons] at hs
            omega
          exact ih rest hrest v' (fun c hc => hv c (by simp [hc])) h.2

theorem replaceCI_prefix_transfer (w' v s : List Char)
    (hv : ∀ c ∈ v, lowerRu c ≠ '*')
    (h : isPrefixCI v (replaceCI w' s) = true) : isPrefixCI v s = true :=
  replaceCI_prefix_transfer_fuel w' s.length s le_rfl v hv h

theorem replaceCI_contains_transfer_fuel (w' : List Char) :
    ∀ (n : Nat) (s : List Char), s.length ≤ n → ∀ v : List Char,
      (∀ c ∈ v, lowerRu c ≠ '*') →
      containsCI v (replaceCI w' s) = true → containsCI v s = true := by
  intro n
  induction n with
  | zero =>
    intro s hs v hv h
    have : s = [] := List.length_eq_zero.mp (Nat.le_zero.mp hs)
    subst this
    exact h
  | succ n ih =>
    intro s hs v hv h
    cases s with
    | nil => exact h
    | cons c rest =>
      have hrest : rest.length ≤ n := by
        simp only [List.length_cons] at hs
        omega
      rw [replaceCI_cons] at h
      by_cases hne : v = []
      · subst hne
        simp [containsCI_cons, isPrefixCI]
      by_cases hp : isPrefixCI w' (c :: rest) = true
      · rw [if_pos hp] at h
        rw [containsCI_star v hv hne, containsCI_star v hv hne,
          containsCI_star v hv hne] at h
        have hdrop : (rest.drop (w'.length - 1)).length ≤ n := by
          rw [List.length_drop]
          omega
        have h2 := ih (rest.drop (w'.length - 1)) hdrop v hv h
        exact containsCI_tail v c rest (containsCI_drop v _ rest h2)
      · rw [if_neg hp] at h
        rw [containsCI_cons] at h
        rcases Bool.or_eq_true_iff.mp h with h1 | h1
        · cases v with
          | nil => exact absurd rfl hne
          | cons v0 v' =>
            simp only [isPrefixCI, Bool.and_eq_true] at h1
            have h2 := replaceCI_prefix_transfer w' v' rest
              (fun c hc => hv c (by simp [hc])) h1.2
            rw [containsCI_cons]
            refine Bool.or_eq_true_iff.mpr (Or.inl ?_)
            simp only [isPrefixCI, Bool.and_eq_true]
            exact ⟨h1.1, h2⟩
        · exact containsCI_tail v c rest (ih rest hrest v hv h1)

theorem replaceCI_contains_transfer (w' v s : List Char)
    (hv : ∀ c ∈ v, lowerRu c ≠ '*')
    (h : containsCI v (replaceCI w' s) = true) : containsCI v s = true :=
  replaceCI_contains_transfer_fuel w' s.length s le_rfl v hv h

theorem replaceCI_self_fuel (w : List Char) (hw : ∀ c ∈ w, lowerRu c ≠ '*')
    (hne : w ≠ []) :
    ∀ (n : Nat) (s : List Char), s.length ≤ n →
      containsCI w (replaceCI w s) = false := by
  intro n
  induction n with
  | zero =>
    intro s hs
    have : s = [] := List.length_eq_zero.mp (Nat.le_zero.mp hs)
    subst this
    show containsCI w [] = false
    rcases hc : containsCI w [] with _ | _
    · rfl
    · exact absurd (containsCI_nil w |>.mp hc) hne
  | succ n ih =>
    intro s hs
    cases s with
    | nil =>
      show containsCI w [] = false
      rcases hc : containsCI w [] with _ | _
      · rfl
      · exact absurd (containsCI_nil w |>.mp hc) hne
    | cons c rest =>
      have hrest : rest.length ≤ n := by
        simp only [List.length_cons] at hs
        omega
      rw [replaceCI_cons]
      by_cases hp : isPrefixCI w (c :: rest) = true
      · rw [if_pos hp]
        rw [containsCI_star w hw hne, containsCI_star w hw hne,
          containsCI_star w hw hne]
        refine ih (rest.drop (w.length - 1)) ?_
        rw [List.length_drop]
        omega
      · rw [if_neg hp]
        rw [containsCI_cons]
        refine Bool.or_eq_false_iff.mpr ⟨?_, ih rest hrest⟩
        rcases hpp : isPrefixCI w (c :: replaceCI w rest) with _ | _
        · rfl
        · exfalso
          cases w with
          | nil => exact hne rfl
          | cons w0 w' =>
            simp only [isPrefixCI, Bool.and_eq_true] at hpp
            have h2 := replaceCI_prefix_transfer (w0 :: w') w' rest
              (fun c hc => hw c (by simp [hc])) hpp.2
            have : isPrefixCI (w0 :: w') (c :: rest) = true := by
              simp only [isPrefixCI, Bool.and_eq_true]
              exact ⟨hpp.1, h2⟩
            exact hp this

theorem replaceCI_self (w : List Char) (hw : ∀ c ∈ w, lowerRu c ≠ '*')
    (hne : w ≠ []) (s : List Char) :
    containsCI w (replaceCI w s) = false :=
  replaceCI_self_fuel w hw hne s.length s le_rfl

theorem censorWords_fold_keeps (ws : List (List Char)) :
    ∀ (t : List Char) (b : Bool) (v : List Char),
      (∀ c ∈ v, lowerRu c ≠ '*') → containsCI v t = false →
      containsCI v ((ws.foldl
        (fun acc w => if containsCI w acc.1 then (replaceCI w acc.1, true) else acc)
        (t, b)).1) = false := by
  induction ws with
  | nil => intro t b v hv h; simpa using h
  | cons w ws ih =>
    intro t b v hv h
    rw [List.foldl_cons]
    by_cases hc : containsCI w t = true
    · simp only [hc, if_true]
      refine ih (replaceCI w t) true v hv ?_
      rcases hx : containsCI v (replaceCI w t) with _ | _
      · rfl
      · exact absurd (replaceCI_contains_transfer w v t hv hx) (by simp [h])
    · have hc' : containsCI w t = false := by simpa using hc
      simp only [hc', Bool.false_eq_true, if_false]
      exact ih t b v hv h

theorem censorWords_fold_clears (ws : List (List Char))
    (hws : ∀ w ∈ ws, w ≠ [] ∧ ∀ c ∈ w, lowerRu c ≠ '*') :
    ∀ (t : List Char) (b : Bool) (v : List Char), v ∈ ws →
      containsCI v ((ws.foldl
        (fun acc w => if containsCI w acc.1 then (replaceCI w acc.1, true) else acc)
        (t, b)).1) = false := by
  induction ws with
  | nil => intro t b v hv; cases hv
  | cons w ws ih =>
    intro t b v hv
    rw [List.foldl_cons]
    rcases List.mem_cons.mp hv with hv | hv
    · -- v = w : after w's own step the text is w-free, and the rest keeps it so
      subst hv
      have hw := hws v (by simp)
      by_cases hc : containsCI v t = true
      · simp only [hc, if_true]
        exact censorWords_fold_keeps ws (replaceCI v t) true v hw.2
          (replaceCI_self v hw.2 hw.1 t)
      · simp only [hc, if_false]
        exact censorWords_fold_keeps ws t b v hw.2 (by simpa using hc)
    · exact ih (fun u hu => hws u (by simp [hu])) _ _ v hv

theorem censorWords_fold_clean (ws : List (List Char)) :
    ∀ (t : List Char) (b : Bool),
      (∀ w ∈ ws, containsCI w t = false) →
      ws.foldl
        (fun acc w => if containsCI w acc.1 then (replaceCI w acc.1, true) else acc)
        (t, b) = (t, b) := by
  induction ws with
  | nil => intro t b _; rfl
  | cons w ws ih =>
    intro t b h
    rw [List.foldl_cons]
    have hw : containsCI w t = false := h w (by simp)
    simp only [hw, if_false]
    exact ih t b (fun u hu => h u (by simp [hu]))

theorem censorWords_idem (ws : List (List Char))
    (hws : ∀ w ∈ ws, w ≠ [] ∧ ∀ c ∈ w, lowerRu c ≠ '*') (t : List Char) :
    BotPy.censorWords ws ((BotPy.censorWords ws t).1) =
      ((BotPy.censorWords ws t).1, false) :=
  censorWords_fold_clean ws _ false
    (fun w hw => censorWords_fold_clears ws hws t false w hw)

theorem contactSubAux_skip :
    ∀ (k : Nat) (s : List Char), MainPy.contactSubAux k s = MainPy.contactSub (s.drop k) := by
  intro k
  induction k with
  | zero => intro s; rfl
  | succ k ih =>
    intro s
    cases s with
    | nil => simp [MainPy.contactSubAux, MainPy.contactSub]
    | cons c rest => simp [MainPy.contactSubAux, ih, List.drop_succ_cons]

theorem contactSub_cons (c : Char) (s : List Char) :
    MainPy.contactSub (c :: s) =
      match MainPy.matchLenAt (c :: s) with
      | some n => MainPy.contact_phrase ++ MainPy.contactSub (s.drop (n - 1))
      | none => c :: MainPy.contactSub s := by
  show MainPy.contactSubAux 0 (c :: s) = _
  simp only [MainPy.contactSubAux, contactSubAux_skip, List.drop_zero]

theorem takeWhile_append_blocker {p : Char → Bool} {b : Char} (hb : p b = false) :
    ∀ (R Y : List Char), (R ++ b :: Y).takeWhile p = R.takeWhile p := by
  intro R Y
  induction R with
  | nil => simp [List.takeWhile_cons, hb]
  | cons c R ih =>
    simp only [List.cons_append, List.takeWhile_cons]
    cases p c <;> simp [ih]

theorem takeWhile_append_mono {p : Char → Bool} :
    ∀ (R X : List Char), (R.takeWhile p).length ≤ ((R ++ X).takeWhile p).length := by
  intro R X
  induction R with
  | nil => simp
  | cons c R ih =>
    simp only [List.cons_append, List.takeWhile_cons]
    cases p c <;> simp [ih]

theorem isPrefixCI_append_left :
    ∀ (v X Y : List Char), isPrefixCI v (X ++ Y) = true → v.length ≤ X.length →
      isPrefixCI v X = true := by
  intro v
  induction v with
  | nil => intro X Y _ _; rfl
  | cons c v ih =>
    intro X Y h hl
    cases X with
    | nil => simp at hl
    | cons d X' =>
      simp only [List.cons_append, isPrefixCI, Bool.and_eq_true] at h ⊢
      exact ⟨h.1, ih X' Y h.2 (by simpa using hl)⟩

theorem isPrefixCI_append_intro :
    ∀ (v X Y : List Char), isPrefixCI v X = true → isPrefixCI v (X ++ Y) = true := by
  intro v
  induction v with
  | nil => intro X Y _; rfl
  | cons c v ih =>
    intro X Y h
    cases X with
    | nil => simp [isPrefixCI] at h
    | cons d X' =>
      simp only [List.cons_append, isPrefixCI, Bool.and_eq_true] at h ⊢
      exact ⟨h.1, ih X' Y h.2⟩

theorem isPrefixCI_blocker {b : Char} (kw : List Char)
    (hb : ∀ c ∈ kw, ciEq c b = false) :
    ∀ (V Y : List Char), isPrefixCI kw (V ++ b :: Y) = true →
      kw.length ≤ V.length ∧ isPrefixCI kw V = true := by
  induction kw with
  | nil => intro V Y _; exact ⟨Nat.zero_le _, rfl⟩
  | cons c kw' ih =>
    intro V Y h
    cases V with
    | nil =>
      exfalso
      simp only [List.nil_append, isPrefixCI, Bool.and_eq_true] at h
      have := hb c (by simp)
      rw [this] at h
      exact Bool.false_ne_true h.1
    | cons v0 V' =>
      simp only [List.cons_append, isPrefixCI, Bool.and_eq_true] at h ⊢
      have := ih (fun u hu => hb u (by simp [hu])) V' Y h.2
      exact ⟨by simpa using Nat.succ_le_succ this.1, h.1, this.2⟩

theorem kwMismatch_sound :
    ∀ (kw u X : List Char), MainPy.kwMismatch kw u = true →
      isPrefixCI kw (u ++ X) = false := by
  intro kw
  induction kw with
  | nil => intro u X h; simp [MainPy.kwMismatch] at h
  | cons c kw' ih =>
    intro u X h
    cases u with
    | nil => simp [MainPy.kwMismatch] at h
    | cons d u' =>
      simp only [MainPy.kwMismatch] at h
      by_cases hc : ciEq c d = true
      · rw [if_pos hc] at h
        simp only [List.cons_append, isPrefixCI]
        have h2 : isPrefixCI kw' (u' ++ X) = false := ih u' X h
        simp only [List.append_eq] at h2 ⊢
        rw [h2]
        simp
      · simp only [List.cons_append, isPrefixCI]
        have : ciEq c d = false := by simpa using hc
        rw [this]
        simp

theorem sepClassTry_some_exists (rest : List Char) :
    ∀ (a n : Nat), MainPy.sepClassTry rest a = some n →
      ∃ a', a' ≤ a ∧ 7 ≤ MainPy.classRun (rest.drop a') := by
  intro a
  induction a with
  | zero =>
    intro n h
    simp only [MainPy.sepClassTry] at h
    by_cases hc : 7 ≤ MainPy.classRun rest
    · exact ⟨0, le_rfl, by simpa using hc⟩
    · rw [if_neg hc] at h; cases h
  | succ a ih =>
    intro n h
    simp only [MainPy.sepClassTry] at h
    by_cases hc : 7 ≤ MainPy.classRun (rest.drop (a + 1))
    · exact ⟨a + 1, le_rfl, hc⟩
    · rw [if_neg hc] at h
      obtain ⟨a', ha', hr⟩ := ih n h
      exact ⟨a', Nat.le_succ_of_le ha', hr⟩

theorem sepClassTry_ne_none (rest : List Char) :
    ∀ (a a' : Nat), a' ≤ a → 7 ≤ MainPy.classRun (rest.drop a') →
      MainPy.sepClassTry rest a ≠ none := by
  intro a
  induction a with
  | zero =>
    intro a' ha' hr
    have : a' = 0 := Nat.le_zero.mp ha'
    subst this
    simp only [MainPy.sepClassTry]
    rw [if_pos (by simpa using hr)]
    simp
  | succ a ih =>
    intro a' ha' hr
    simp only [MainPy.sepClassTry]
    by_cases hc : 7 ≤ MainPy.classRun (rest.drop (a + 1))
    · rw [if_pos hc]; simp
    · rw [if_neg hc]
      rcases Nat.lt_or_ge a' (a + 1) with hlt | hge
      · exact ih a' (Nat.lt_succ_iff.mp hlt) hr
      · exact absurd (le_antisymm ha' hge ▸ hr) hc

theorem sepClassMatch_blocker_transfer {b : Char} (hbs : MainPy.sepChar b = false)
    (hbc : MainPy.classChar b = false) (R Y X : List Char) {n : Nat}
    (h : MainPy.sepClassMatch (R ++ b :: Y) = some n) :
    MainPy.sepClassMatch (R ++ X) ≠ none := by
  obtain ⟨a', ha', hcr⟩ := sepClassTry_some_exists _ _ _ h
  have hsep : MainPy.sepRun (R ++ b :: Y) = MainPy.sepRun R := by
    unfold MainPy.sepRun
    rw [takeWhile_append_blocker hbs]
  rw [hsep] at ha'
  have haR : a' ≤ R.length :=
    le_trans ha' (List.takeWhile_sublist MainPy.sepChar).length_le
  have hdropR : (R ++ b :: Y).drop a' = R.drop a' ++ b :: Y :=
    List.drop_append_of_le_length haR
  rw [hdropR] at hcr
  have hcr2 : 7 ≤ MainPy.classRun (R.drop a') := by
    unfold MainPy.classRun at hcr ⊢
    rw [takeWhile_append_blocker hbc] at hcr
    exact hcr
  refine sepClassTry_ne_none (R ++ X) _ a' ?_ ?_
  · refine le_trans ha' ?_
    unfold MainPy.sepRun
    exact takeWhile_append_mono R X
  · rw [List.drop_append_of_le_length haR]
    refine le_trans hcr2 ?_
    unfold MainPy.classRun
    exact takeWhile_append_mono (R.drop a') X

theorem matchKw_blocker_transfer {b : Char}
    (hbs : MainPy.sepChar b = false) (hbc : MainPy.classChar b = false) :
    ∀ (kws : List (List Char)), (∀ kw ∈ kws, ∀ c ∈ kw, ciEq c b = false) →
    ∀ (V Y X : List Char) (n : Nat),
      MainPy.matchKw kws (V ++ b :: Y) = some n →
      MainPy.matchKw kws (V ++ X) ≠ none := by
  intro kws
  induction kws with
  | nil =>
    intro _ V Y X n h
    simp [MainPy.matchKw] at h
  | cons kw kws ih =>
    intro hkb V Y X n h
    simp only [MainPy.matchKw] at h ⊢
    by_cases hp : isPrefixCI kw (V ++ b :: Y) = true
    · rw [if_pos hp] at h
      obtain ⟨hlen, hpV⟩ := isPrefixCI_blocker kw (hkb kw (by simp)) V Y hp
      have hpVX : isPrefixCI kw (V ++ X) = true := isPrefixCI_append_intro kw V X hpV
      rw [if_pos hpVX]
      have hdY : (V ++ b :: Y).drop kw.length = V.drop kw.length ++ b :: Y :=
        List.drop_append_of_le_length hlen
      have hdX : (V ++ X).drop kw.length = V.drop kw.length ++ X :=
        List.drop_append_of_le_length hlen
      rw [hdY] at h
      rw [hdX]
      cases hsc : MainPy.sepClassMatch (V.drop kw.length ++ b :: Y) with
      | some m =>
        have hne := sepClassMatch_blocker_transfer hbs hbc (V.drop kw.length) Y X hsc
        cases hscx : MainPy.sepClassMatch (V.drop kw.length ++ X) with
        | some k => simp
        | none => exact absurd hscx hne
      | none =>
        rw [hsc] at h
        have hih := ih (fun u hu => hkb u (by simp [hu])) V Y X n h
        cases hscx : MainPy.sepClassMatch (V.drop kw.length ++ X) with
        | some k => simp
        | none => exact hih
    · rw [if_neg hp] at h
      have hih := ih (fun u hu => hkb u (by simp [hu])) V Y X n h
      by_cases hpX : isPrefixCI kw (V ++ X) = true
      · rw [if_pos hpX]
        cases hscx : MainPy.sepClassMatch ((V ++ X).drop kw.length) with
        | some k => simp
        | none => exact hih
      · rw [if_neg hpX]
        exact hih

theorem phrase_head : MainPy.contact_phrase = 'К' :: MainPy.contact_phrase.tail := rfl

theorem keywords_no_K :
    ∀ kw ∈ MainPy.contact_keywords, ∀ c ∈ kw, ciEq c 'К' = false := by decide

theorem sepChar_K : MainPy.sepChar 'К' = false := by decide

theorem classChar_K : MainPy.classChar 'К' = false := by decide

theorem contactSub_scan_transfer :
    ∀ (n : Nat) (s : List Char), s.length ≤ n → ∀ (V : List Char),
      MainPy.matchLenAt (V ++ s) = none →
      MainPy.matchLenAt (V ++ MainPy.contactSub s) = none := by
  intro n
  induction n with
  | zero =>
    intro s hs V h
    have : s = [] := List.length_eq_zero.mp (Nat.le_zero.mp hs)
    subst this
    exact h
  | succ n ih =>
    intro s hs V h
    cases s with
    | nil => exact h
    | cons c s0 =>
      rw [contactSub_cons]
      cases hm : MainPy.matchLenAt (c :: s0) with
      | some m =>
        cases hx : MainPy.matchLenAt (V ++ (MainPy.contact_phrase ++
            MainPy.contactSub (s0.drop (m - 1)))) with
        | none => rfl
        | some k =>
          exfalso
          rw [phrase_head] at hx
          have hx' : MainPy.matchKw MainPy.contact_keywords
              (V ++ 'К' :: (MainPy.contact_phrase.tail ++
                MainPy.contactSub (s0.drop (m - 1)))) = some k := by
            simpa [MainPy.matchLenAt] using hx
          have := matchKw_blocker_transfer sepChar_K classChar_K
            MainPy.contact_keywords keywords_no_K V _ (c :: s0) k hx'
          exact this h
      | none =>
        have h' : MainPy.matchLenAt ((V ++ [c]) ++ s0) = none := by
          rw [← List.append_cons]
          exact h
        have hlen : s0.length ≤ n := by
          simp only [List.length_cons] at hs
          omega
        have := ih s0 hlen (V ++ [c]) h'
        rw [← List.append_cons] at this
        exact this


theorem sepClassMatch_local_none (r : List Char)
    (hb : r.any (fun c => !(MainPy.sepChar c || MainPy.classChar c)) = true)
    (hn : MainPy.sepClassMatch r = none) (X : List Char) :
    MainPy.sepClassMatch (r ++ X) = none := by
  cases hx : MainPy.sepClassMatch (r ++ X) with
  | none => rfl
  | some m =>
    exfalso
    obtain ⟨a', ha', hcr⟩ := sepClassTry_some_exists _ _ _ hx
    obtain ⟨bch, hbmem, hbp⟩ := List.any_eq_true.mp hb
    have hor : (MainPy.sepChar bch || MainPy.classChar bch) = false := by
      simpa using hbp
    have hbsep : MainPy.sepChar bch = false := (Bool.or_eq_false_iff.mp hor).1
    have hbcls : MainPy.classChar bch = false := (Bool.or_eq_false_iff.mp hor).2
    obtain ⟨r₁, r₂, rfl⟩ := List.append_of_mem hbmem
    have hassoc : (r₁ ++ bch :: r₂) ++ X = r₁ ++ bch :: (r₂ ++ X) := by
      simp
    have hsx : MainPy.sepRun ((r₁ ++ bch :: r₂) ++ X) =
        (r₁.takeWhile MainPy.sepChar).length := by
      rw [hassoc]
      unfold MainPy.sepRun
      rw [takeWhile_append_blocker hbsep]
    have hsr : MainPy.sepRun (r₁ ++ bch :: r₂) =
        (r₁.takeWhile MainPy.sepChar).length := by
      unfold MainPy.sepRun
      rw [takeWhile_append_blocker hbsep]
    rw [hsx] at ha'
    have ha1 : a' ≤ r₁.length :=
      le_trans ha' (List.takeWhile_sublist MainPy.sepChar).length_le
    have har : a' ≤ (r₁ ++ bch :: r₂).length := by
      simp only [List.length_append, List.length_cons]
      omega
    have hdx : ((r₁ ++ bch :: r₂) ++ X).drop a' = (r₁ ++ bch :: r₂).drop a' ++ X :=
      List.drop_append_of_le_length har
    have hdr : (r₁ ++ bch :: r₂).drop a' = r₁.drop a' ++ bch :: r₂ :=
      List.drop_append_of_le_length ha1
    rw [hdx, hdr] at hcr
    have hcr2 : 7 ≤ MainPy.classRun (r₁.drop a' ++ bch :: r₂) := by
      unfold MainPy.classRun at hcr ⊢
      have hassoc2 : (r₁.drop a' ++ bch :: r₂) ++ X = r₁.drop a' ++ bch :: (r₂ ++ X) := by
        simp
      rw [hassoc2] at hcr
      rw [takeWhile_append_blocker hbcls] at hcr ⊢
      exact hcr
    refine sepClassTry_ne_none (r₁ ++ bch :: r₂) _ a' ?_ ?_ hn
    · rw [hsr]
      exact ha'
    · rw [hdr]
      exact hcr2

theorem kwBlocked_sound (kw u X : List Char) (h : MainPy.kwBlocked kw u = true) :
    isPrefixCI kw (u ++ X) = false ∨
      (isPrefixCI kw (u ++ X) = true ∧ kw.length ≤ u.length ∧
        MainPy.sepClassMatch ((u ++ X).drop kw.length) = none) := by
  rcases Bool.or_eq_true_iff.mp h with hm | hrest
  · exact Or.inl (kwMismatch_sound kw u X hm)
  · simp only [Bool.and_eq_true, decide_eq_true_eq] at hrest
    obtain ⟨⟨hlen, hp⟩, hfc⟩ := hrest
    have hpX : isPrefixCI kw (u ++ X) = true := isPrefixCI_append_intro kw u X hp
    refine Or.inr ⟨hpX, hlen, ?_⟩
    rw [List.drop_append_of_le_length hlen]
    simp only [MainPy.failCertB, Bool.and_eq_true, Option.isNone_iff_eq_none] at hfc
    exact sepClassMatch_local_none (u.drop kw.length) hfc.1 hfc.2 X

theorem locallyBlocked_sound (u : List Char) (h : MainPy.locallyBlocked u = true)
    (X : List Char) : MainPy.matchLenAt (u ++ X) = none := by
  have hall : ∀ kw ∈ MainPy.contact_keywords, MainPy.kwBlocked kw u = true := by
    intro kw hkw
    exact List.all_eq_true.mp h kw hkw
  show MainPy.matchKw MainPy.contact_keywords (u ++ X) = none
  have haux : ∀ kws : List (List Char),
      (∀ kw ∈ kws, MainPy.kwBlocked kw u = true) →
      MainPy.matchKw kws (u ++ X) = none := by
    intro kws
    induction kws with
    | nil => intro _; rfl
    | cons kw kws ih =>
      intro hk
      simp only [MainPy.matchKw]
      rcases kwBlocked_sound kw u X (hk kw (by simp)) with hp | ⟨hp, _, hsc⟩
      · rw [hp]
        simpa using ih (fun k hk2 => hk k (by simp [hk2]))
      · rw [if_pos hp, hsc]
        exact ih (fun k hk2 => hk k (by simp [hk2]))
  exact haux MainPy.contact_keywords hall

theorem phrase_locallyBlocked :
    ∀ i, i < MainPy.contact_phrase.length →
      MainPy.locallyBlocked (MainPy.contact_phrase.drop i) = true := by decide

theorem noMatchB_append_phrase (R : List Char) (hR : MainPy.noMatchB R = true) :
    ∀ (P : List Char), (∀ i, i < P.length → MainPy.locallyBlocked (P.drop i) = true) →
      MainPy.noMatchB (P ++ R) = true := by
  intro P
  induction P with
  | nil => intro _; exact hR
  | cons c P' ih =>
    intro hP
    simp only [List.cons_append, MainPy.noMatchB, Bool.and_eq_true]
    constructor
    · have h0 := locallyBlocked_sound (c :: P') (hP 0 (by simp)) R
      simp only [List.cons_append] at h0
      simp [h0]
    · exact ih (fun i hi => hP (i + 1) (by simpa using Nat.succ_lt_succ hi))

theorem contactSub_scan_transfer_final (s V : List Char)
    (h : MainPy.matchLenAt (V ++ s) = none) :
    MainPy.matchLenAt (V ++ MainPy.contactSub s) = none :=
  contactSub_scan_transfer s.length s le_rfl V h

theorem noMatch_contactSub_fuel :
    ∀ (n : Nat) (s : List Char), s.length ≤ n →
      MainPy.noMatchB (MainPy.contactSub s) = true := by
  intro n
  induction n with
  | zero =>
    intro s hs
    have : s = [] := List.length_eq_zero.mp (Nat.le_zero.mp hs)
    subst this
    rfl
  | succ n ih =>
    intro s hs
    cases s with
    | nil => rfl
    | cons c s0 =>
      rw [contactSub_cons]
      cases hm : MainPy.matchLenAt (c :: s0) with
      | some m =>
        refine noMatchB_append_phrase _ ?_ MainPy.contact_phrase phrase_locallyBlocked
        refine ih (s0.drop (m - 1)) ?_
        rw [List.length_drop]
        simp only [List.length_cons] at hs
        omega
      | none =>
        simp only [MainPy.noMatchB, Bool.and_eq_true]
        constructor
        · have h' : MainPy.matchLenAt ([c] ++ s0) = none := by
            simpa using hm
          have h2 := contactSub_scan_transfer_final s0 [c] h'
          simp only [List.singleton_append] at h2
          simp [h2]
        · refine ih s0 ?_
          simp only [List.length_cons] at hs
          omega

theorem contactSub_of_noMatch :
    ∀ (s : List Char), MainPy.noMatchB s = true → MainPy.contactSub s = s := by
  intro s
  induction s with
  | nil => intro _; rfl
  | cons c s0 ih =>
    intro h
    simp only [MainPy.noMatchB, Bool.and_eq_true, Option.isNone_iff_eq_none] at h
    rw [contactSub_cons, h.1]
    rw [ih h.2]

theorem contactSub_idem (s : List Char) :
    MainPy.contactSub (MainPy.contactSub s) = MainPy.contactSub s :=
  contactSub_of_noMatch _ (noMatch_contactSub_fuel s.length s le_rfl)

theorem isPrefixCI_take :
    ∀ (X : List Char) (w T : List Char), isPrefixCI w (X ++ T) = true →
      X.length ≤ w.length → listCIEq (w.take X.length) X = true := by
  intro X
  induction X with
  | nil => intro w T _ _; rfl
  | cons d X' ih =>
    intro w T h hl
    cases w with
    | nil => simp at hl
    | cons c w' =>
      simp only [List.cons_append, isPrefixCI, Bool.and_eq_true] at h
      simp only [List.length_cons, List.take_succ_cons, listCIEq, Bool.and_eq_true]
      exact ⟨h.1, ih w' T h.2 (by simpa using hl)⟩

theorem contains_append_left_blocked (w : List Char) :
    ∀ (P T : List Char),
      (∀ i, i < P.length + 1 →
        (w.length ≤ P.length - i → isPrefixCI w (P.drop i) = false) ∧
        (P.length - i < w.length → 0 < P.length - i →
          listCIEq (w.take (P.length - i)) (P.drop i) = false)) →
      containsCI w (P ++ T) = true → containsCI w T = true := by
  intro P
  induction P with
  | nil => intro T _ h; exact h
  | cons c P' ih =>
    intro T HS h
    rw [List.cons_append, containsCI_cons] at h
    rcases Bool.or_eq_true_iff.mp h with h1 | h1
    · exfalso
      by_cases hl : w.length ≤ (c :: P').length
      · have hp := isPrefixCI_append_left w (c :: P') T h1 hl
        have h0 := (HS 0 (by omega)).1
        simp only [Nat.sub_zero, List.drop_zero] at h0
        rw [h0 hl] at hp
        exact Bool.false_ne_true hp
      · push_neg at hl
        have hspan := isPrefixCI_take (c :: P') w T h1 (le_of_lt hl)
        have h2 := (HS 0 (by omega)).2
        simp only [Nat.sub_zero, List.drop_zero] at h2
        rw [h2 hl (by simp)] at hspan
        exact Bool.false_ne_true hspan
    · refine ih T ?_ h1
      intro i hi
      have := HS (i + 1) (by simpa using Nat.succ_lt_succ hi)
      simpa [Nat.succ_sub_succ] using this

theorem contactSub_prefix_transfer (w : List Char)
    (hwlen : w.length ≤ MainPy.contact_phrase.length)
    (hpw : ∀ k, k < w.length → isPrefixCI (w.drop k) MainPy.contact_phrase = false) :
    ∀ (n : Nat) (s : List Char), s.length ≤ n → ∀ k, k < w.length →
      isPrefixCI (w.drop k) (MainPy.contactSub s) = true →
      isPrefixCI (w.drop k) s = true := by
  intro n
  induction n with
  | zero =>
    intro s hs k hk hpre
    have : s = [] := List.length_eq_zero.mp (Nat.le_zero.mp hs)
    subst this
    exact hpre
  | succ n ih =>
    intro s hs k hk hpre
    cases s with
    | nil => exact hpre
    | cons c s0 =>
      rw [contactSub_cons] at hpre
      cases hm : MainPy.matchLenAt (c :: s0) with
      | some m =>
        exfalso
        rw [hm] at hpre
        have hdl : (w.drop k).length ≤ MainPy.contact_phrase.length := by
          rw [List.length_drop]
          omega
        have hp := isPrefixCI_append_left (w.drop k) MainPy.contact_phrase _ hpre hdl
        rw [hpw k hk] at hp
        exact Bool.false_ne_true hp
      | none =>
        rw [hm] at hpre
        have hwk : w.drop k = w[k] :: w.drop (k + 1) := List.drop_eq_getElem_cons hk
        rw [hwk] at hpre ⊢
        simp only [isPrefixCI, Bool.and_eq_true] at hpre ⊢
        refine ⟨hpre.1, ?_⟩
        by_cases hk1 : k + 1 < w.length
        · refine ih s0 ?_ (k + 1) hk1 hpre.2
          simp only [List.length_cons] at hs
          omega
        · have : w.drop (k + 1) = [] := by
            rw [List.drop_eq_nil_iff]
            omega
          rw [this]
          rfl

theorem contactSub_contains_transfer (w : List Char)
    (hwlen : w.length ≤ MainPy.contact_phrase.length)
    (hpw : ∀ k, k < w.length → isPrefixCI (w.drop k) MainPy.contact_phrase = false)
    (hHS : ∀ i, i < MainPy.contact_phrase.length + 1 →
      (w.length ≤ MainPy.contact_phrase.length - i →
        isPrefixCI w (MainPy.contact_phrase.drop i) = false) ∧
      (MainPy.contact_phrase.length - i < w.length →
        0 < MainPy.contact_phrase.length - i →
        listCIEq (w.take (MainPy.contact_phrase.length - i))
          (MainPy.contact_phrase.drop i) = false)) :
    ∀ (n : Nat) (s : List Char), s.length ≤ n →
      containsCI w (MainPy.contactSub s) = true → containsCI w s = true := by
  intro n
  induction n with
  | zero =>
    intro s hs h
    have : s = [] := List.length_eq_zero.mp (Nat.le_zero.mp hs)
    subst this
    exact h
  | succ n ih =>
    intro s hs h
    cases s with
    | nil => exact h
    | cons c s0 =>
      rw [contactSub_cons] at h
      cases hm : MainPy.matchLenAt (c :: s0) with
      | some m =>
        rw [hm] at h
        have h2 := contains_append_left_blocked w MainPy.contact_phrase _ hHS h
        have h3 := ih (s0.drop (m - 1)) (by rw [List.length_drop]
                                            simp only [List.length_cons] at hs
                                            omega) h2
        exact containsCI_tail w c s0 (containsCI_drop w (m - 1) s0 h3)
      | none =>
        rw [hm] at h
        by_cases hwe : w = []
        · subst hwe
          cases s0 <;> simp [containsCI, isPrefixCI]
        rw [containsCI_cons] at h
        rcases Bool.or_eq_true_iff.mp h with h1 | h1
        · cases w with
          | nil => exact absurd rfl hwe
          | cons w0 w' =>
            simp only [isPrefixCI, Bool.and_eq_true] at h1
            rw [containsCI_cons]
            refine Bool.or_eq_true_iff.mpr (Or.inl ?_)
            simp only [isPrefixCI, Bool.and_eq_true]
            refine ⟨h1.1, ?_⟩
            by_cases hl1 : 1 < (w0 :: w').length
            · have := contactSub_prefix_transfer (w0 :: w') hwlen hpw s0.length s0
                le_rfl 1 hl1 (by simpa using h1.2)
              simpa using this
            · have hw' : w' = [] := by
                simp only [List.length_cons] at hl1
                have : w'.length = 0 := by omega
                exact List.length_eq_zero.mp this
              rw [hw']
              rfl
        · have hlen : s0.length ≤ n := by
            simp only [List.length_cons] at hs
            omega
          exact containsCI_tail w c s0 (ih s0 hlen h1)

theorem main_censor_word_facts : ∀ w ∈ MainPy.DEFAULT_BAD_WORDS,
    (w ≠ [] ∧ ∀ c ∈ w, lowerRu c ≠ '*') ∧
    w.length ≤ MainPy.contact_phrase.length ∧
    (∀ k, k < w.length → isPrefixCI (w.drop k) MainPy.contact_phrase = false) ∧
    (∀ i, i < MainPy.contact_phrase.length + 1 →
      (w.length ≤ MainPy.contact_phrase.length - i →
        isPrefixCI w (MainPy.contact_phrase.drop i) = false) ∧
      (MainPy.contact_phrase.length - i < w.length →
        0 < MainPy.contact_phrase.length - i →
        listCIEq (w.take (MainPy.contact_phrase.length - i))
          (MainPy.contact_phrase.drop i) = false)) := by decide

theorem main_censor_idem (t : List Char) :
    MainPy.censor_text ((MainPy.censor_text t).1) = ((MainPy.censor_text t).1, false) := by
  have hclear : ∀ w ∈ MainPy.DEFAULT_BAD_WORDS,
      containsCI w (MainPy.contactSub
        (BotPy.censorWords MainPy.DEFAULT_BAD_WORDS t).1) = false := by
    intro w hw
    obtain ⟨⟨hne, hstar⟩, hwlen, hpw, hHS⟩ := main_censor_word_facts w hw
    cases hx : containsCI w (MainPy.contactSub
        (BotPy.censorWords MainPy.DEFAULT_BAD_WORDS t).1) with
    | false => rfl
    | true =>
      exfalso
      have h2 := contactSub_contains_transfer w hwlen hpw hHS _ _ le_rfl hx
      have h3 : containsCI w (BotPy.censorWords MainPy.DEFAULT_BAD_WORDS t).1 = false :=
        censorWords_fold_clears MainPy.DEFAULT_BAD_WORDS
          (fun u hu => ⟨(main_censor_word_facts u hu).1.1,
            (main_censor_word_facts u hu).1.2⟩)
          t false w hw
      rw [h2] at h3
      cases h3
  have hpass : BotPy.censorWords MainPy.DEFAULT_BAD_WORDS
      (MainPy.contactSub (BotPy.censorWords MainPy.DEFAULT_BAD_WORDS t).1) =
      (MainPy.contactSub (BotPy.censorWords MainPy.DEFAULT_BAD_WORDS t).1, false) :=
    censorWords_fold_clean MainPy.DEFAULT_BAD_WORDS _ false hclear
  show (MainPy.contactSub (BotPy.censorWords MainPy.DEFAULT_BAD_WORDS
      (MainPy.contactSub (BotPy.censorWords MainPy.DEFAULT_BAD_WORDS t).1)).1,
    (BotPy.censorWords MainPy.DEFAULT_BAD_WORDS
      (MainPy.contactSub (BotPy.censorWords MainPy.DEFAULT_BAD_WORDS t).1)).2) = _
  rw [hpass]
  simp only [contactSub_idem]
  rfl

/-- C7: both censors are idempotent — censoring an already-censored text
returns it unchanged and reports no violation.  For `src/bot.py` this is the
banned-word loop's invariant (after the pass, no listed word occurs in the
text, so a second pass finds nothing and flags nothing).  For `src/main.py`
the censored text additionally contains no fresh contact-pattern match (the
replacement phrase is blocked at every internal position and the scan cannot
be enabled by a replacement, since the phrase starts with a character no
keyword or character class accepts), and no banned word (none overlaps the
replacement phrase), so the second pass returns it verbatim with a false
flag. -/
theorem claim_C7 : ∀ t : List Char,
    BotPy.censor_text ((BotPy.censor_text t).1) = ((BotPy.censor_text t).1, false) ∧
    MainPy.censor_text ((MainPy.censor_text t).1) = ((MainPy.censor_text t).1, false) :=
  fun t =>
    ⟨censorWords_idem BotPy.DEFAULT_BAD_WORDS (by decide) t, main_censor_idem t⟩
